import Mathlib

/-!
Verification development for the qurancontrol display server
(`src/public/display.js`, server section).

The server keeps a single mutable Position State (`currentState`), a session
registry (`socketInfoByWs`, an insertion-ordered map), a control-lock holder
(`activeControllerId`) and a liveness monitor.  All mutating logic is pure
JavaScript over integers and strings, embedded here as executable Lean
definitions.  JavaScript `Number(x) || 1` coercion is modelled by the `JVal`
type (`nan` stands for any value whose numeric coercion is `NaN`), and string
normalisation `.trim().toLowerCase()` by the character-list function
`strNorm`.
-/

namespace QuranControl

/-- JavaScript value in a numeric position slot: either a (finite, integral)
number or something that coerces to `NaN` (strings, `undefined`, objects). -/
inductive JVal where
  | num (n : Int)
  | nan
deriving DecidableEq

/-- The JS idiom `Number(x) || 1`: `NaN` and `0` are falsy and become `1`. -/
def numOr1 : JVal → Int
  | .num n => if n = 0 then 1 else n
  | .nan => 1

/-- `.trim().toLowerCase()` on a string, as used for dua ids. -/
def strNorm (s : String) : String :=
  ⟨(((s.data.dropWhile Char.isWhitespace).reverse.dropWhile
      Char.isWhitespace).reverse).map Char.toLower⟩

/-- One line of a dua file (fields of the objects built by `loadDuas`). -/
structure DuaLine where
  arabic : String
  transliteration : String
  english : String
deriving DecidableEq

/-- A loaded dua: `{ id, title, lines }` as stored in `duaDataById`. -/
structure Dua where
  id : String
  title : String
  lines : List DuaLine
deriving DecidableEq

/-- The content store the server reads: surah metadata (`metadata.surahs`,
`surahMetaByNumber`), the ayah data keys (`ayahDataBySurah`), and the loaded
duas (`duaDataById`, in insertion order). -/
structure Store where
  /-- `metadata.surahs.length`; `0` models a missing/empty `surahs` array. -/
  surahCount : Nat
  /-- `surahMetaByNumber.get(n)?.ayahCount`; `none` models a missing entry or
  a non-finite count. -/
  metaAyahCount : Int → Option Int
  /-- Keys of `ayahDataBySurah.get(n)`; `[]` models a missing or empty map. -/
  ayahKeys : Int → List Int
  /-- `duaDataById` as an insertion-ordered association list. -/
  duas : List Dua

/-- `metadata.surahs?.length || 114`. -/
def totalSurahs (st : Store) : Int :=
  if st.surahCount = 0 then 114 else (st.surahCount : Int)

/-- `Math.max(...keys)` over a nonempty key list. -/
def maxKey : List Int → Int
  | [] => 1
  | k :: ks => ks.foldl max k

/-- `getMaxAyahForSurah`: prefer the positive metadata count, else the largest
key of the ayah data, else 1. -/
def getMaxAyahForSurah (st : Store) (surahNumber : Int) : Int :=
  match st.metaAyahCount surahNumber with
  | some c =>
      if 0 < c then c
      else match st.ayahKeys surahNumber with
        | [] => 1
        | k :: ks => maxKey (k :: ks)
  | none =>
      match st.ayahKeys surahNumber with
      | [] => 1
      | k :: ks => maxKey (k :: ks)

/-- Stored scripture position. -/
structure QuranPos where
  surahNumber : Int
  ayahNumber : Int
deriving DecidableEq

/-- Stored supplication position. -/
structure DuaPos where
  duaId : String
  lineIndex : Int
deriving DecidableEq

/-- Active content domain (`clampMode` admits only these two values). -/
inductive Mode where
  | quran
  | dua
deriving DecidableEq

/-- The Position State record `currentState`. -/
structure AppState where
  mode : Mode
  quran : QuranPos
  dua : DuaPos
deriving DecidableEq

/-- `clampQuranState(nextSurah, nextAyah)`. -/
def clampQuranState (st : Store) (nextSurah nextAyah : JVal) : QuranPos :=
  let surahNumber := max 1 (min (totalSurahs st) (numOr1 nextSurah))
  let maxAyah := getMaxAyahForSurah st surahNumber
  let ayahNumber := max 1 (min maxAyah (numOr1 nextAyah))
  ⟨surahNumber, ayahNumber⟩

/-- `duaDataById.get(id)` over the insertion-ordered list. -/
def duaGet (duas : List Dua) (id : String) : Option Dua :=
  duas.find? (fun d => d.id == id)

/-- `getDefaultDuaId()`. -/
def getDefaultDuaId (duas : List Dua) : String :=
  if (duaGet duas "iftitah").isSome then "iftitah"
  else match duas with
    | [] => ""
    | d :: _ => if d.id = "" then "" else d.id

/-- `dua?.lines.length || 1`. -/
def duaMaxLine (d : Dua) : Int :=
  if d.lines.length = 0 then 1 else (d.lines.length : Int)

/-- `String(candidateDua?.duaId || defaultId).trim().toLowerCase()`:
`candId = none` models a falsy `candidateDua?.duaId` (absent or `null`). -/
def requestedDuaId (duas : List Dua) (candId : Option String) : String :=
  strNorm (match candId with
    | some s => if s = "" then getDefaultDuaId duas else s
    | none => getDefaultDuaId duas)

/-- `clampDuaState(candidateDua)`. -/
def clampDuaState (duas : List Dua) (candId : Option String) (candLine : JVal) :
    DuaPos :=
  match (duaGet duas (requestedDuaId duas candId)).orElse
      (fun _ => duaGet duas (getDefaultDuaId duas)) with
  | none => ⟨"", 1⟩
  | some dua => ⟨dua.id, max 1 (min (duaMaxLine dua) (numOr1 candLine))⟩

/-- `clampMode(mode)` on a raw message string. -/
def clampMode (mode : String) : Mode :=
  if mode = "dua" then .dua else .quran

/-- Candidate scripture slot fed to `clampAppState`. -/
structure CandQuran where
  surahNumber : JVal
  ayahNumber : JVal

/-- Candidate supplication slot fed to `clampAppState`. -/
structure CandDua where
  duaId : Option String
  lineIndex : JVal

/-- Candidate state fed to `clampAppState` (internal callers always pass a
spread of `currentState`, so the mode slot is already a `Mode`). -/
structure CandState where
  mode : Mode
  quran : CandQuran
  dua : CandDua

/-- Reinject a stored scripture position as a candidate. -/
def QuranPos.toCand (q : QuranPos) : CandQuran :=
  ⟨.num q.surahNumber, .num q.ayahNumber⟩

/-- Reinject a stored supplication position as a candidate (an empty stored
id is falsy in `candidateDua?.duaId || defaultId`). -/
def DuaPos.toCand (d : DuaPos) : CandDua :=
  ⟨if d.duaId = "" then none else some d.duaId, .num d.lineIndex⟩

/-- Reinject a whole stored state as a candidate (the `{...currentState}`
spread). -/
def AppState.toCand (s : AppState) : CandState :=
  ⟨s.mode, s.quran.toCand, s.dua.toCand⟩

/-- The mode fallback inside `clampAppState`: `dua` mode is kept only when a
dua was actually resolved. -/
def resolveMode (m : Mode) (dua : DuaPos) : Mode :=
  match m with
  | .dua => if dua.duaId = "" then Mode.quran else Mode.dua
  | .quran => Mode.quran

/-- `clampAppState(candidateState)`: clamp both domains, and fall back to
`quran` mode when no dua could be resolved. -/
def clampAppState (st : Store) (c : CandState) : AppState :=
  ⟨resolveMode c.mode (clampDuaState st.duas c.dua.duaId c.dua.lineIndex),
   clampQuranState st c.quran.surahNumber c.quran.ayahNumber,
   clampDuaState st.duas c.dua.duaId c.dua.lineIndex⟩

/-- `statesEqual(a, b)`: field-by-field comparison. -/
def statesEqual (a b : AppState) : Bool :=
  a.mode == b.mode &&
  a.quran.surahNumber == b.quran.surahNumber &&
  a.quran.ayahNumber == b.quran.ayahNumber &&
  a.dua.duaId == b.dua.duaId &&
  a.dua.lineIndex == b.dua.lineIndex

/-- `setCurrentState(nextState, _)`: clamp, compare, and report whether a
`state_update` broadcast was triggered. -/
def setCurrentState (st : Store) (cur : AppState) (next : CandState) :
    AppState × Bool :=
  if statesEqual (clampAppState st next) cur then (cur, false)
  else (clampAppState st next, true)

/-- `setMode(nextMode, _)`. -/
def setMode (st : Store) (cur : AppState) (nextMode : String) :
    AppState × Bool :=
  setCurrentState st cur { cur.toCand with mode := clampMode nextMode }

/-- `setQuran(nextSurah, nextAyah, _)`. -/
def setQuran (st : Store) (cur : AppState) (nextSurah nextAyah : JVal) :
    AppState × Bool :=
  setCurrentState st cur
    { cur.toCand with quran := (clampQuranState st nextSurah nextAyah).toCand }

/-- `setDua(nextDuaId, nextLineIndex, _)`. -/
def setDua (st : Store) (cur : AppState) (nextDuaId : Option String)
    (nextLineIndex : JVal) : AppState × Bool :=
  setCurrentState st cur
    { cur.toCand with
      dua := (clampDuaState st.duas nextDuaId nextLineIndex).toCand }

/-- First phase of `getSteppedQuranState`: the `ayahNumber > maxAyah`
overflow check after `ayahNumber += step`. -/
def steppedOverflow (st : Store) (q : QuranPos) (step : Int) : Int × Int :=
  if q.ayahNumber + step > getMaxAyahForSurah st q.surahNumber then
    if q.surahNumber < totalSurahs st then (q.surahNumber + 1, 1)
    else (q.surahNumber, getMaxAyahForSurah st q.surahNumber)
  else (q.surahNumber, q.ayahNumber + step)

/-- Second phase of `getSteppedQuranState`: the `ayahNumber < 1` underflow
check on the (surah, ayah) pair left by the first phase. -/
def steppedUnderflow (st : Store) (p : Int × Int) : Int × Int :=
  if p.2 < 1 then
    if p.1 > 1 then (p.1 - 1, getMaxAyahForSurah st (p.1 - 1))
    else (p.1, 1)
  else p

/-- `getSteppedQuranState(quranState, direction)`. -/
def getSteppedQuranState (st : Store) (q : QuranPos) (direction : String) :
    QuranPos :=
  clampQuranState st
    (.num (steppedUnderflow st
      (steppedOverflow st q (if direction = "prev" then -1 else 1))).1)
    (.num (steppedUnderflow st
      (steppedOverflow st q (if direction = "prev" then -1 else 1))).2)

/-- `dua?.lines.length || 1` for the dua resolved inside
`getSteppedDuaState`. -/
def steppedDuaTotal (duas : List Dua) (id : String) : Int :=
  match duaGet duas id with
  | some dua => if dua.lines.length = 0 then 1 else (dua.lines.length : Int)
  | none => 1

/-- The re-clamp of the current supplication position performed at the start
of `getSteppedDuaState`. -/
def steppedDuaClamped (duas : List Dua) (d : DuaPos) : DuaPos :=
  clampDuaState duas (if d.duaId = "" then none else some d.duaId)
    (.num d.lineIndex)

/-- `getSteppedDuaState(duaState, direction)`. -/
def getSteppedDuaState (duas : List Dua) (d : DuaPos) (direction : String) :
    DuaPos :=
  ⟨(steppedDuaClamped duas d).duaId,
   max 1 (min (steppedDuaTotal duas (steppedDuaClamped duas d).duaId)
     ((steppedDuaClamped duas d).lineIndex +
       (if direction = "prev" then -1 else 1)))⟩

/-- `stepActive(direction, _)`. -/
def stepActive (st : Store) (cur : AppState) (direction : String) :
    AppState × Bool :=
  if direction ≠ "next" ∧ direction ≠ "prev" then (cur, false)
  else if cur.mode = .dua then
    setCurrentState st cur
      { cur.toCand with dua := (getSteppedDuaState st.duas cur.dua direction).toCand }
  else
    setCurrentState st cur
      { cur.toCand with quran := (getSteppedQuranState st cur.quran direction).toCand }

/-- Declared role of a session (`'unknown'` until a `hello` arrives;
`requestedRole` is normalised to `'control'` or `'display'`). -/
inductive Role where
  | unknown
  | control
  | display
deriving DecidableEq

/-- `message.role === 'control' ? 'control' : 'display'`. -/
def normalizeRole (r : String) : Role :=
  if r = "control" then .control else .display

/-- The per-socket record `{ id, role, lastHeartbeatAt }`. -/
structure SessionInfo where
  id : Nat
  role : Role
  lastHeartbeatAt : Nat
deriving DecidableEq

/-- Whole mutable server state: the insertion-ordered session registry
(`socketInfoByWs`), the id counter, the control-lock holder and the Position
State. -/
structure Server where
  sessions : List SessionInfo
  counter : Nat
  activeControllerId : Option Nat
  state : AppState
deriving DecidableEq

/-- Refresh `lastHeartbeatAt` of the (unique) session with the given id. -/
def touchById (now sid : Nat) : List SessionInfo → List SessionInfo
  | [] => []
  | i :: rest =>
      if i.id = sid then { i with lastHeartbeatAt := now } :: rest
      else i :: touchById now sid rest

/-- Overwrite the role of the (unique) session with the given id. -/
def setRoleById (r : Role) (sid : Nat) : List SessionInfo → List SessionInfo
  | [] => []
  | i :: rest =>
      if i.id = sid then { i with role := r } :: rest
      else i :: setRoleById r sid rest

/-- The promotion scan inside `releaseActiveController`: walk the registry in
insertion order, promote the first `control`-role session whose id is not the
excluded one (resetting its liveness timestamp), and stop. -/
def promoteFirst (now : Nat) (excluded : Option Nat) :
    List SessionInfo → Option Nat × List SessionInfo
  | [] => (none, [])
  | i :: rest =>
      if i.role = Role.control ∧ excluded ≠ some i.id then
        (some i.id, { i with lastHeartbeatAt := now } :: rest)
      else
        ((promoteFirst now excluded rest).1,
         i :: (promoteFirst now excluded rest).2)

/-- `releaseActiveController(reason, excludedControllerId)`. -/
def releaseActiveController (now : Nat) (srv : Server)
    (excluded : Option Nat) : Server :=
  match srv.activeControllerId with
  | none => srv
  | some _ =>
      let p := promoteFirst now excluded srv.sessions
      { srv with activeControllerId := p.1, sessions := p.2 }

/-- `claimController(ws)`. -/
def claimController (now sid : Nat) (srv : Server) : Server :=
  match srv.sessions.find? (fun i => i.id == sid) with
  | none => srv
  | some info =>
      if info.role = Role.control then
        let srv1 := { srv with sessions := touchById now sid srv.sessions }
        if srv1.activeControllerId = none then
          { srv1 with activeControllerId := some sid }
        else srv1
      else srv

/-- Messages sent back to an individual socket (payload bodies that do not
matter to the claims are elided to their type tag). -/
inductive Reply where
  | connectedReply (sid : Nat)
  | bootstrapReply
  | errorReply (message : String)
  | controlLockReply
deriving DecidableEq

/-- `rejectIfNotActiveController(ws, socketInfo)`: `true` plus the replies
sent when the command must be rejected. -/
def rejectIfNotActiveController (srv : Server) (info : SessionInfo) :
    Bool × List Reply :=
  if info.role ≠ Role.control then
    (true, [.errorReply "Only control clients can update state."])
  else if srv.activeControllerId ≠ some info.id then
    (true, [.errorReply "Controller lock active on another device.",
            .controlLockReply])
  else (false, [])

/-- Inbound websocket message, after JSON parsing.  `set_state` is an alias
of `setQuran` in the dispatch and is kept as its own constructor. -/
inductive Msg where
  | hello (role : String)
  | heartbeat
  | requestState
  | setModeMsg (mode : String)
  | setQuranMsg (surahNumber ayahNumber : JVal)
  | setDuaMsg (duaId : Option String) (lineIndex : JVal)
  | nextMsg
  | prevMsg
  | stepMsg (direction : String)
  | setStateMsg (surahNumber ayahNumber : JVal)
  | unrecognized
deriving DecidableEq

/-- Whether a message type is in the mutating-command dispatch list. -/
def isMutating : Msg → Bool
  | .setModeMsg _ => true
  | .setQuranMsg _ _ => true
  | .setDuaMsg _ _ => true
  | .nextMsg => true
  | .prevMsg => true
  | .stepMsg _ => true
  | .setStateMsg _ _ => true
  | _ => false

/-- The state mutation performed by an accepted mutating command. -/
def applyMutation (st : Store) (cur : AppState) : Msg → AppState × Bool
  | .setModeMsg m => setMode st cur m
  | .setQuranMsg s a => setQuran st cur s a
  | .setStateMsg s a => setQuran st cur s a
  | .setDuaMsg d l => setDua st cur d l
  | .nextMsg => stepActive st cur "next"
  | .prevMsg => stepActive st cur "prev"
  | .stepMsg dir => stepActive st cur (if dir = "prev" then "prev" else "next")
  | _ => (cur, false)

/-- Result of handling one inbound message: the new server state, the replies
sent to the sender, and the ids that received a `state_update` broadcast. -/
structure StepOut where
  server : Server
  toSender : List Reply
  stateBroadcast : List Nat
deriving DecidableEq

/-- The `hello` branch of the message handler: overwrite the declared role
and, for `control`, attempt to claim the lock; reply with a bootstrap. -/
def handleHello (now : Nat) (srv : Server) (sid : Nat) (role : String) :
    StepOut :=
  if normalizeRole role = Role.control then
    ⟨claimController now sid
        { srv with sessions := setRoleById (normalizeRole role) sid srv.sessions },
      [.bootstrapReply], []⟩
  else
    ⟨{ srv with sessions := setRoleById (normalizeRole role) sid srv.sessions },
      [.bootstrapReply], []⟩

/-- The mutating-command branch of the message handler: authorization check,
liveness refresh, clamped mutation, conditional `state_update` broadcast to
every registered session. -/
def handleMutating (st : Store) (now : Nat) (srv : Server) (sid : Nat)
    (info : SessionInfo) (msg : Msg) : StepOut :=
  if (rejectIfNotActiveController srv info).1 then
    ⟨srv, (rejectIfNotActiveController srv info).2, []⟩
  else
    ⟨⟨touchById now sid srv.sessions, srv.counter, srv.activeControllerId,
       (applyMutation st srv.state msg).1⟩,
     [],
     if (applyMutation st srv.state msg).2 then
       (touchById now sid srv.sessions).map (fun i => i.id)
     else []⟩

/-- The `ws.on('message')` handler for one parsed message from session
`sid`.  A session id not in the registry yields a no-op (a socket that has
been removed can no longer deliver messages). -/
def handleMessage (st : Store) (now : Nat) (srv : Server) (sid : Nat)
    (msg : Msg) : StepOut :=
  match srv.sessions.find? (fun i => i.id == sid) with
  | none => ⟨srv, [], []⟩
  | some info =>
      if isMutating msg then handleMutating st now srv sid info msg
      else
        match msg with
        | .hello role => handleHello now srv sid role
        | .heartbeat =>
            if info.role = Role.control ∧ srv.activeControllerId = some sid then
              ⟨{ srv with sessions := touchById now sid srv.sessions }, [], []⟩
            else ⟨srv, [], []⟩
        | .requestState => ⟨srv, [.bootstrapReply], []⟩
        | _ => ⟨srv, [], []⟩

/-- External events driving the server: a new websocket connection, a parsed
message, a socket close, and one liveness-monitor tick. -/
inductive Event where
  | connect (now : Nat)
  | message (sid : Nat) (msg : Msg) (now : Nat)
  | disconnect (sid : Nat) (now : Nat)
  | tick (now : Nat)
deriving DecidableEq

/-- One step of the server: connection handler, message handler, close
handler, or liveness-monitor tick (`timeout` is `CONTROLLER_TIMEOUT_MS`). -/
def stepEvent (st : Store) (timeout : Nat) (srv : Server) : Event → Server
  | .connect now =>
      { srv with
        sessions := srv.sessions ++ [⟨srv.counter, Role.unknown, now⟩],
        counter := srv.counter + 1 }
  | .message sid msg now => (handleMessage st now srv sid msg).server
  | .disconnect sid now =>
      match srv.sessions.find? (fun i => i.id == sid) with
      | none => srv
      | some info =>
          if srv.activeControllerId = some info.id then
            releaseActiveController now
              { srv with sessions := srv.sessions.filter (fun i => i.id ≠ sid) }
              (some info.id)
          else
            { srv with sessions := srv.sessions.filter (fun i => i.id ≠ sid) }
  | .tick now =>
      match srv.activeControllerId with
      | none => srv
      | some cid =>
          match srv.sessions.find? (fun i => i.id == cid) with
          | none => releaseActiveController now srv none
          | some info =>
              if timeout < now - info.lastHeartbeatAt then
                releaseActiveController now srv (some info.id)
              else srv

/-- The Position State the server boots with. -/
def initAppState (st : Store) : AppState :=
  clampAppState st
    ⟨Mode.quran, ⟨.num 1, .num 1⟩,
     ⟨if getDefaultDuaId st.duas = "" then none
       else some (getDefaultDuaId st.duas), .num 1⟩⟩

/-- The server state at startup (`socketIdCounter` starts at 1). -/
def initServer (st : Store) : Server :=
  ⟨[], 1, none, initAppState st⟩

/-- Run the server from a given state over a list of events. -/
def runFrom (st : Store) (timeout : Nat) (srv : Server)
    (events : List Event) : Server :=
  events.foldl (stepEvent st timeout) srv

/-- Run the server from startup over a list of events. -/
def run (st : Store) (timeout : Nat) (events : List Event) : Server :=
  runFrom st timeout (initServer st) events

/-- `true` when the lock holder, if any, is a registered session (checked by
scanning the registry). -/
def holderRegistered (srv : Server) : Bool :=
  match srv.activeControllerId with
  | none => true
  | some cid => srv.sessions.any (fun i => i.id == cid)

/-- `true` when the lock holder, if any, is a registered session whose role
is `control`. -/
def holderOk (srv : Server) : Bool :=
  match srv.activeControllerId with
  | none => true
  | some cid => srv.sessions.any (fun i => i.id == cid && i.role == Role.control)

/-- The session ids targeted by the `hello` messages of a trace. -/
def helloTargets : List Event → List Nat
  | [] => []
  | .message sid (.hello _) _ :: rest => sid :: helloTargets rest
  | _ :: rest => helloTargets rest

/-- The stored role of session `sid`, if registered. -/
def roleOf (srv : Server) (sid : Nat) : Option Role :=
  (srv.sessions.find? (fun i => i.id == sid)).map (fun i => i.role)

/-- A small concrete content store used to exercise the definitions: three
surahs (surah 1 with 7 ayahs, surah 2 with 5, surah 3 via fallback 1) and two
loaded duas. -/
def demoStore : Store :=
  { surahCount := 3
    metaAyahCount := fun s => if s = 1 then some 7 else if s = 2 then some 5 else none
    ayahKeys := fun _ => []
    duas :=
      [ ⟨"iftitah", "Dua al-Iftitah", [⟨"a1", "t1", "e1"⟩, ⟨"a2", "t2", "e2"⟩]⟩,
        ⟨"kumayl", "Dua Kumayl", [⟨"b1", "u1", "f1"⟩]⟩ ] }

/-- Well-formedness of the content store, as the loaders guarantee it:
ayah-data keys are genuine ayah numbers (≥ 1); at least one dua is loaded
(`loadDuas` falls back to an in-memory placeholder); every loaded dua has a
nonempty `lines` array (empty ones are skipped); dua ids are nonempty and
already trimmed/lowercased; and map keys are unique. -/
structure StoreWF (st : Store) : Prop where
  ayahKeys_pos : ∀ s k, k ∈ st.ayahKeys s → 1 ≤ k
  duas_ne : st.duas ≠ []
  dua_lines_ne : ∀ d ∈ st.duas, d.lines ≠ []
  dua_id_norm : ∀ d ∈ st.duas, strNorm d.id = d.id ∧ d.id ≠ ""
  dua_ids_nodup : (st.duas.map (fun d => d.id)).Nodup

/-- A Position State that is a fixpoint of re-clamping; `currentState` always
has this property because every write goes through `clampAppState`. -/
def IsClamped (st : Store) (s : AppState) : Prop :=
  clampAppState st s.toCand = s

/-- The (id, role) projection of the registry: liveness timestamps are
irrelevant to the lock-safety invariants. -/
def absSessions (l : List SessionInfo) : List (Nat × Role) :=
  l.map (fun i => (i.id, i.role))

/-- Proposition form of `holderRegistered`: the holder, if any, is the id of
a registered session. -/
def RegInvP (srv : Server) : Prop :=
  ∀ cid, srv.activeControllerId = some cid →
    cid ∈ (absSessions srv.sessions).map Prod.fst

/-- Proposition form of `holderOk`: the holder, if any, is the id of a
registered session whose role is `control`. -/
def ControlInvP (srv : Server) : Prop :=
  ∀ cid, srv.activeControllerId = some cid →
    (cid, Role.control) ∈ absSessions srv.sessions

/-- The hello target of a single event, if it is a role declaration. -/
def helloTarget? : Event → Option Nat
  | .message sid (.hello _) _ => some sid
  | _ => none

theorem one_le_totalSurahs (st : Store) : 1 ≤ totalSurahs st := by
  unfold totalSurahs
  split
  · omega
  · rename_i h
    omega

theorem le_foldl_max (l : List Int) : ∀ a : Int, a ≤ l.foldl max a := by
  induction l with
  | nil => intro a; exact le_refl a
  | cons x xs ih =>
      intro a
      calc a ≤ max a x := le_max_left a x
        _ ≤ xs.foldl max (max a x) := ih (max a x)

theorem one_le_maxAyah (st : Store) (hwf : StoreWF st) (s : Int) :
    1 ≤ getMaxAyahForSurah st s := by
  have hkeys : ∀ k ks, st.ayahKeys s = k :: ks → 1 ≤ maxKey (k :: ks) := by
    intro k ks hk
    have h1 : 1 ≤ k := hwf.ayahKeys_pos s k (by rw [hk]; exact List.mem_cons_self k ks)
    calc (1 : Int) ≤ k := h1
      _ ≤ ks.foldl max k := le_foldl_max ks k
  unfold getMaxAyahForSurah
  split
  · rename_i c hc
    split
    · omega
    · split
      · omega
      · rename_i _ k ks hk
        exact hkeys k ks hk
  · split
    · omega
    · rename_i _ k ks hk
      exact hkeys k ks hk

theorem clampQuranState_bounds (st : Store) (hwf : StoreWF st) (s a : JVal) :
    1 ≤ (clampQuranState st s a).surahNumber ∧
    (clampQuranState st s a).surahNumber ≤ totalSurahs st ∧
    1 ≤ (clampQuranState st s a).ayahNumber ∧
    (clampQuranState st s a).ayahNumber ≤
      getMaxAyahForSurah st (clampQuranState st s a).surahNumber := by
  have h1 := one_le_totalSurahs st
  have h2 := one_le_maxAyah st hwf (max 1 (min (totalSurahs st) (numOr1 s)))
  simp only [clampQuranState]
  omega

theorem clampQuranState_eval (st : Store) (s a : Int)
    (h1 : 1 ≤ s) (h2 : s ≤ totalSurahs st) (h3 : 1 ≤ a)
    (h4 : a ≤ getMaxAyahForSurah st s) :
    clampQuranState st (.num s) (.num a) = ⟨s, a⟩ := by
  have hs0 : s ≠ 0 := by omega
  have ha0 : a ≠ 0 := by omega
  have hs : max 1 (min (totalSurahs st) (numOr1 (.num s))) = s := by
    simp only [numOr1, if_neg hs0]
    omega
  simp only [clampQuranState, hs]
  have : max 1 (min (getMaxAyahForSurah st s) (numOr1 (.num a))) = a := by
    simp only [numOr1, if_neg ha0]
    omega
  rw [this]

theorem clampQuranState_fix (st : Store) (hwf : StoreWF st) (s a : JVal) :
    clampQuranState st (.num (clampQuranState st s a).surahNumber)
      (.num (clampQuranState st s a).ayahNumber) = clampQuranState st s a := by
  obtain ⟨h1, h2, h3, h4⟩ := clampQuranState_bounds st hwf s a
  exact clampQuranState_eval st _ _ h1 h2 h3 h4

theorem duaGet_mem {duas : List Dua} {id : String} {d : Dua}
    (h : duaGet duas id = some d) : d ∈ duas ∧ d.id = id := by
  refine ⟨List.mem_of_find?_eq_some h, ?_⟩
  have := List.find?_some h
  simpa using this

theorem duaGet_self {duas : List Dua} (hnd : (duas.map (fun d => d.id)).Nodup) :
    ∀ d ∈ duas, duaGet duas d.id = some d := by
  induction duas with
  | nil => intro d hd; cases hd
  | cons d0 rest ih =>
      intro d hd
      rcases List.mem_cons.1 hd with h | h
      · subst h
        simp [duaGet, List.find?]
      · have hne : d.id ≠ d0.id := by
          intro he
          have h0 : d0.id ∈ rest.map (fun x => x.id) := by
            rw [← he]
            exact List.mem_map_of_mem (fun x => x.id) h
          have := (List.nodup_cons.1 hnd).1
          exact this h0
        have hrest := ih (List.nodup_cons.1 hnd).2 d h
        simp only [duaGet, List.find?] at hrest ⊢
        have : (d0.id == d.id) = false := by
          simp [beq_eq_false_iff_ne]
          intro he
          exact hne he.symm
        rw [this]
        exact hrest

theorem duaGet_default (st : Store) (hwf : StoreWF st) :
    ∃ d ∈ st.duas, duaGet st.duas (getDefaultDuaId st.duas) = some d ∧
      getDefaultDuaId st.duas = d.id := by
  unfold getDefaultDuaId
  split
  · rename_i hsome
    rw [Option.isSome_iff_exists] at hsome
    obtain ⟨d, hd⟩ := hsome
    obtain ⟨hmem, hid⟩ := duaGet_mem hd
    exact ⟨d, hmem, hd, hid.symm⟩
  · split
    · rename_i hnil
      exact absurd hnil hwf.duas_ne
    · rename_i d0 rest heq
      have hmem : d0 ∈ st.duas := by rw [heq]; exact List.mem_cons_self d0 rest
      have hne := (hwf.dua_id_norm d0 hmem).2
      rw [if_neg hne]
      refine ⟨d0, hmem, ?_, rfl⟩
      rw [heq]
      simp [duaGet, List.find?]

theorem clampDuaState_spec (st : Store) (hwf : StoreWF st)
    (c : Option String) (l : JVal) :
    ∃ d ∈ st.duas,
      (clampDuaState st.duas c l).duaId = d.id ∧
      duaGet st.duas (clampDuaState st.duas c l).duaId = some d ∧
      1 ≤ (clampDuaState st.duas c l).lineIndex ∧
      (clampDuaState st.duas c l).lineIndex ≤ (d.lines.length : Int) := by
  obtain ⟨dDef, hDefMem, hDefGet, hDefId⟩ := duaGet_default st hwf
  unfold clampDuaState
  have hbound : ∀ d : Dua, d ∈ st.duas →
      1 ≤ max 1 (min (duaMaxLine d) (numOr1 l)) ∧
      max 1 (min (duaMaxLine d) (numOr1 l)) ≤ (d.lines.length : Int) := by
    intro d hd
    have hlen : d.lines.length ≠ 0 := by
      intro h0
      exact hwf.dua_lines_ne d hd (List.length_eq_zero.1 h0)
    have hlen1 : 1 ≤ (d.lines.length : Int) := by
      have : 0 < d.lines.length := Nat.pos_of_ne_zero hlen
      omega
    unfold duaMaxLine
    rw [if_neg hlen]
    omega
  rcases hget : duaGet st.duas (requestedDuaId st.duas c) with _ | d
  · simp only [Option.orElse]
    rw [hDefGet]
    have hid : duaGet st.duas dDef.id = some dDef := by rw [← hDefId]; exact hDefGet
    exact ⟨dDef, hDefMem, rfl, hid, hbound dDef hDefMem⟩
  · simp only [Option.orElse]
    obtain ⟨hmem, hid⟩ := duaGet_mem hget
    have hselfget : duaGet st.duas d.id = some d := duaGet_self hwf.dua_ids_nodup d hmem
    exact ⟨d, hmem, rfl, hselfget, hbound d hmem⟩

theorem clampDuaState_eval (st : Store) (hwf : StoreWF st) (d : Dua)
    (hd : d ∈ st.duas) (li : Int) (h1 : 1 ≤ li)
    (h2 : li ≤ (d.lines.length : Int)) :
    clampDuaState st.duas (some d.id) (.num li) = ⟨d.id, li⟩ := by
  have hne := (hwf.dua_id_norm d hd).2
  have hnorm := (hwf.dua_id_norm d hd).1
  have hget : duaGet st.duas d.id = some d := duaGet_self hwf.dua_ids_nodup d hd
  have hlen : d.lines.length ≠ 0 := by
    intro h0
    exact hwf.dua_lines_ne d hd (List.length_eq_zero.1 h0)
  have hreq : requestedDuaId st.duas (some d.id) = d.id := by
    unfold requestedDuaId
    simp only [if_neg hne]
    exact hnorm
  unfold clampDuaState
  rw [hreq, hget]
  simp only [Option.orElse, Option.some_orElse]
  have hli0 : li ≠ 0 := by omega
  simp only [numOr1, if_neg hli0, duaMaxLine, if_neg hlen]
  congr 1
  omega

theorem clampDuaState_fix (st : Store) (hwf : StoreWF st)
    (c : Option String) (l : JVal) :
    clampDuaState st.duas
      (if (clampDuaState st.duas c l).duaId = "" then none
        else some (clampDuaState st.duas c l).duaId)
      (.num (clampDuaState st.duas c l).lineIndex) = clampDuaState st.duas c l := by
  obtain ⟨d, hmem, hid, _, h1, h2⟩ := clampDuaState_spec st hwf c l
  have hne : (clampDuaState st.duas c l).duaId ≠ "" := by
    rw [hid]
    exact (hwf.dua_id_norm d hmem).2
  rw [if_neg hne, hid]
  have := clampDuaState_eval st hwf d hmem (clampDuaState st.duas c l).lineIndex h1 h2
  rw [this]
  cases hcl : clampDuaState st.duas c l with
  | mk i x =>
      congr 1
      · rw [hcl] at hid
        exact hid.symm

theorem statesEqual_iff (a b : AppState) : statesEqual a b = true ↔ a = b := by
  rcases a with ⟨m1, ⟨s1, a1⟩, ⟨i1, l1⟩⟩
  rcases b with ⟨m2, ⟨s2, a2⟩, ⟨i2, l2⟩⟩
  simp [statesEqual, and_assoc]

theorem clampDuaState_ne_empty (st : Store) (hwf : StoreWF st)
    (c : Option String) (l : JVal) :
    (clampDuaState st.duas c l).duaId ≠ "" := by
  obtain ⟨d, hmem, hid, -, -, -⟩ := clampDuaState_spec st hwf c l
  rw [hid]
  exact (hwf.dua_id_norm d hmem).2

theorem clampAppState_fix (st : Store) (hwf : StoreWF st) (c : CandState) :
    IsClamped st (clampAppState st c) := by
  have hq := clampQuranState_fix st hwf c.quran.surahNumber c.quran.ayahNumber
  have hd := clampDuaState_fix st hwf c.dua.duaId c.dua.lineIndex
  have hne := clampDuaState_ne_empty st hwf c.dua.duaId c.dua.lineIndex
  unfold IsClamped clampAppState
  simp only [AppState.toCand, QuranPos.toCand, DuaPos.toCand]
  rw [hq, hd]
  congr 1
  cases c.mode with
  | quran => rfl
  | dua => simp [resolveMode, hne]

theorem setCurrentState_eq (st : Store) (cur : AppState) (next : CandState) :
    setCurrentState st cur next =
      if clampAppState st next = cur then (cur, false)
      else (clampAppState st next, true) := by
  unfold setCurrentState
  by_cases h : clampAppState st next = cur
  · rw [if_pos ((statesEqual_iff _ _).2 h), if_pos h]
  · have hb : statesEqual (clampAppState st next) cur = false := by
      rcases hb : statesEqual (clampAppState st next) cur with _ | _
      · rfl
      · exact absurd ((statesEqual_iff _ _).1 hb) h
    rw [hb, if_neg h]
    simp

theorem demoStore_wf : StoreWF demoStore := by
  refine ⟨?_, ?_, ?_, ?_, ?_⟩
  · intro s k hk
    simp [demoStore] at hk
  · decide
  · decide
  · decide
  · decide

/-- C5 (confirmed): every position-mutation write goes through
`clampQuranState` / `clampDuaState`, and for arbitrary inputs (negative,
zero, `NaN`-coercing, or huge numbers; unknown handles) the stored scripture
position lies in `[1, totalSurahs] × [1, maxAyah(surah)]` and the stored
supplication position resolves to a loaded dua with line index in
`[1, lines.length]`; clamping is total, so no error is surfaced. -/
theorem c5_clamping_invariant (st : Store) (hwf : StoreWF st)
    (s a : JVal) (cd : Option String) (cl : JVal) :
    (1 ≤ (clampQuranState st s a).surahNumber ∧
     (clampQuranState st s a).surahNumber ≤ totalSurahs st ∧
     1 ≤ (clampQuranState st s a).ayahNumber ∧
     (clampQuranState st s a).ayahNumber ≤
       getMaxAyahForSurah st (clampQuranState st s a).surahNumber) ∧
    (∃ d, duaGet st.duas (clampDuaState st.duas cd cl).duaId = some d ∧
     1 ≤ (clampDuaState st.duas cd cl).lineIndex ∧
     (clampDuaState st.duas cd cl).lineIndex ≤ (d.lines.length : Int)) := by
  refine ⟨clampQuranState_bounds st hwf s a, ?_⟩
  obtain ⟨d, hmem, hid, hget, h1, h2⟩ := clampDuaState_spec st hwf cd cl
  exact ⟨d, hget, h1, h2⟩

/-- Witness for C5 at a concrete store with out-of-range inputs. -/
theorem c5_clamping_invariant_witness :
    (1 ≤ (clampQuranState demoStore (.num (-50)) .nan).surahNumber ∧
     (clampQuranState demoStore (.num (-50)) .nan).surahNumber ≤ totalSurahs demoStore ∧
     1 ≤ (clampQuranState demoStore (.num (-50)) .nan).ayahNumber ∧
     (clampQuranState demoStore (.num (-50)) .nan).ayahNumber ≤
       getMaxAyahForSurah demoStore
         (clampQuranState demoStore (.num (-50)) .nan).surahNumber) ∧
    (∃ d, duaGet demoStore.duas
        (clampDuaState demoStore.duas (some "no-such-dua") (.num 1000000)).duaId = some d ∧
     1 ≤ (clampDuaState demoStore.duas (some "no-such-dua") (.num 1000000)).lineIndex ∧
     (clampDuaState demoStore.duas (some "no-such-dua") (.num 1000000)).lineIndex ≤
       (d.lines.length : Int)) :=
  c5_clamping_invariant demoStore demoStore_wf (.num (-50)) .nan
    (some "no-such-dua") (.num 1000000)

/-- C6 (confirmed): scripture step semantics of `getSteppedQuranState` — a
`next` below the surah's bound increments the ayah; at the bound it moves to
`(s+1, 1)` unless `s` is the last surah, where it clamps; a `prev` at ayah 1
moves to `(s-1, maxAyah(s-1))` unless `s = 1`, where it clamps. -/
theorem c6_quran_step_semantics (st : Store) (hwf : StoreWF st) (s a : Int)
    (hs1 : 1 ≤ s) (hs2 : s ≤ totalSurahs st)
    (ha1 : 1 ≤ a) (ha2 : a ≤ getMaxAyahForSurah st s) :
    (a < getMaxAyahForSurah st s →
       getSteppedQuranState st ⟨s, a⟩ "next" = ⟨s, a + 1⟩) ∧
    (a = getMaxAyahForSurah st s → s < totalSurahs st →
       getSteppedQuranState st ⟨s, a⟩ "next" = ⟨s + 1, 1⟩) ∧
    (a = getMaxAyahForSurah st s → s = totalSurahs st →
       getSteppedQuranState st ⟨s, a⟩ "next" = ⟨s, getMaxAyahForSurah st s⟩) ∧
    (1 < s →
       getSteppedQuranState st ⟨s, 1⟩ "prev" =
         ⟨s - 1, getMaxAyahForSurah st (s - 1)⟩) ∧
    (s = 1 → getSteppedQuranState st ⟨s, 1⟩ "prev" = ⟨1, 1⟩) := by
  have hM := one_le_maxAyah st hwf s
  have hnextdir : (if ("next" : String) = "prev" then (-1 : Int) else 1) = 1 := by
    decide
  have hprevdir : (if ("prev" : String) = "prev" then (-1 : Int) else 1) = -1 := by
    decide
  refine ⟨?_, ?_, ?_, ?_, ?_⟩
  · intro hlt
    have hover : steppedOverflow st ⟨s, a⟩ 1 = (s, a + 1) := by
      unfold steppedOverflow
      simp only
      rw [if_neg (by omega)]
    have hunder : steppedUnderflow st (s, a + 1) = (s, a + 1) := by
      unfold steppedUnderflow
      simp only
      rw [if_neg (by omega)]
    unfold getSteppedQuranState
    rw [hnextdir, hover, hunder]
    exact clampQuranState_eval st s (a + 1) hs1 hs2 (by omega) (by omega)
  · intro heq hlt
    have hover : steppedOverflow st ⟨s, a⟩ 1 = (s + 1, 1) := by
      unfold steppedOverflow
      simp only
      rw [if_pos (by omega), if_pos (by omega)]
    have hunder : steppedUnderflow st (s + 1, 1) = (s + 1, 1) := by
      unfold steppedUnderflow
      simp only
      rw [if_neg (by omega)]
    unfold getSteppedQuranState
    rw [hnextdir, hover, hunder]
    exact clampQuranState_eval st (s + 1) 1 (by omega) (by omega) (by omega)
      (one_le_maxAyah st hwf (s + 1))
  · intro heq hlast
    have hover : steppedOverflow st ⟨s, a⟩ 1 = (s, getMaxAyahForSurah st s) := by
      unfold steppedOverflow
      simp only
      rw [if_pos (by omega), if_neg (by omega)]
    have hunder : steppedUnderflow st (s, getMaxAyahForSurah st s) =
        (s, getMaxAyahForSurah st s) := by
      unfold steppedUnderflow
      simp only
      rw [if_neg (by omega)]
    unfold getSteppedQuranState
    rw [hnextdir, hover, hunder]
    exact clampQuranState_eval st s (getMaxAyahForSurah st s) hs1 hs2 (by omega)
      (le_refl _)
  · intro hgt
    have hover : steppedOverflow st ⟨s, 1⟩ (-1) = (s, 0) := by
      unfold steppedOverflow
      simp only
      rw [if_neg (by omega)]
      norm_num
    have hunder : steppedUnderflow st (s, 0) =
        (s - 1, getMaxAyahForSurah st (s - 1)) := by
      unfold steppedUnderflow
      simp only
      rw [if_pos (by omega), if_pos (by omega)]
    unfold getSteppedQuranState
    rw [hprevdir, hover, hunder]
    exact clampQuranState_eval st (s - 1) (getMaxAyahForSurah st (s - 1))
      (by omega) (by omega) (one_le_maxAyah st hwf (s - 1)) (le_refl _)
  · intro hone
    subst hone
    have hover : steppedOverflow st ⟨1, 1⟩ (-1) = (1, 0) := by
      unfold steppedOverflow
      simp only
      rw [if_neg (by omega)]
      norm_num
    have hunder : steppedUnderflow st (1, 0) = (1, 1) := by
      unfold steppedUnderflow
      simp only
      rw [if_pos (by omega), if_neg (by omega)]
    unfold getSteppedQuranState
    rw [hprevdir, hover, hunder]
    exact clampQuranState_eval st 1 1 (by omega) (one_le_totalSurahs st)
      (by omega) (one_le_maxAyah st hwf 1)

/-- Witness for C6 at surah 1 / ayah 7 of the concrete store. -/
theorem c6_quran_step_semantics_witness :
    (1 : Int) ≤ 1 ∧ (1 : Int) ≤ totalSurahs demoStore ∧
    (7 : Int) ≤ getMaxAyahForSurah demoStore 1 ∧
    getSteppedQuranState demoStore ⟨1, 7⟩ "next" = ⟨2, 1⟩ :=
  ⟨by decide, by decide, by decide,
    (c6_quran_step_semantics demoStore demoStore_wf 1 7 (by decide) (by decide)
      (by decide) (by decide)).2.1 (by decide) (by decide)⟩

theorem find?_session_id {l : List SessionInfo} {sid : Nat} {info : SessionInfo}
    (h : l.find? (fun i => i.id == sid) = some info) : info.id = sid := by
  have := List.find?_some h
  simpa using this

theorem touchById_map_id (now sid : Nat) (l : List SessionInfo) :
    (touchById now sid l).map (fun i => i.id) = l.map (fun i => i.id) := by
  induction l with
  | nil => rfl
  | cons i rest ih =>
      unfold touchById
      by_cases h : i.id = sid
      · rw [if_pos h]
        simp [ih]
      · rw [if_neg h]
        simp [ih]

theorem setCurrentState_snd (st : Store) (cur : AppState) (next : CandState) :
    ((setCurrentState st cur next).2 = true →
      (setCurrentState st cur next).1 ≠ cur) ∧
    ((setCurrentState st cur next).2 = false →
      (setCurrentState st cur next).1 = cur) := by
  rw [setCurrentState_eq]
  by_cases h : clampAppState st next = cur
  · rw [if_pos h]
    exact ⟨(by intro hx; cases hx), fun _ => rfl⟩
  · rw [if_neg h]
    exact ⟨fun _ => h, (by intro hx; cases hx)⟩

theorem setCurrentState_fst_dua (st : Store) (cur : AppState) (next : CandState) :
    ((setCurrentState st cur next).1).dua = (clampAppState st next).dua := by
  rw [setCurrentState_eq]
  by_cases h : clampAppState st next = cur
  · rw [if_pos h, ← h]
  · rw [if_neg h]

theorem stepActive_cases (st : Store) (cur : AppState) (dir : String) :
    stepActive st cur dir = (cur, false) ∨
    ∃ next, stepActive st cur dir = setCurrentState st cur next := by
  unfold stepActive
  by_cases h1 : dir ≠ "next" ∧ dir ≠ "prev"
  · rw [if_pos h1]
    exact Or.inl rfl
  · rw [if_neg h1]
    by_cases h2 : cur.mode = Mode.dua
    · rw [if_pos h2]
      exact Or.inr ⟨_, rfl⟩
    · rw [if_neg h2]
      exact Or.inr ⟨_, rfl⟩

theorem applyMutation_snd (st : Store) (cur : AppState) (msg : Msg) :
    ((applyMutation st cur msg).2 = true → (applyMutation st cur msg).1 ≠ cur) ∧
    ((applyMutation st cur msg).2 = false → (applyMutation st cur msg).1 = cur) := by
  have hstep : ∀ dir,
      ((stepActive st cur dir).2 = true → (stepActive st cur dir).1 ≠ cur) ∧
      ((stepActive st cur dir).2 = false → (stepActive st cur dir).1 = cur) := by
    intro dir
    rcases stepActive_cases st cur dir with h | ⟨next, h⟩
    · rw [h]
      exact ⟨(by intro hx; cases hx), fun _ => rfl⟩
    · rw [h]
      exact setCurrentState_snd st cur next
  cases msg with
  | hello r => exact ⟨(by intro hx; cases hx), fun _ => rfl⟩
  | heartbeat => exact ⟨(by intro hx; cases hx), fun _ => rfl⟩
  | requestState => exact ⟨(by intro hx; cases hx), fun _ => rfl⟩
  | unrecognized => exact ⟨(by intro hx; cases hx), fun _ => rfl⟩
  | setModeMsg m => exact setCurrentState_snd st cur _
  | setQuranMsg s a => exact setCurrentState_snd st cur _
  | setStateMsg s a => exact setCurrentState_snd st cur _
  | setDuaMsg d l => exact setCurrentState_snd st cur _
  | nextMsg => exact hstep "next"
  | prevMsg => exact hstep "prev"
  | stepMsg dir => exact hstep _

theorem handleMessage_mutating_eq (st : Store) (now : Nat) (srv : Server)
    (sid : Nat) (info : SessionInfo) (msg : Msg)
    (hfind : srv.sessions.find? (fun i => i.id == sid) = some info)
    (hmut : isMutating msg = true) :
    handleMessage st now srv sid msg = handleMutating st now srv sid info msg := by
  unfold handleMessage
  rw [hfind]
  simp [hmut]

theorem handleMessage_heartbeat_eq (st : Store) (now : Nat) (srv : Server)
    (sid : Nat) (info : SessionInfo)
    (hfind : srv.sessions.find? (fun i => i.id == sid) = some info) :
    handleMessage st now srv sid .heartbeat =
      if info.role = Role.control ∧ srv.activeControllerId = some sid then
        ⟨{ srv with sessions := touchById now sid srv.sessions }, [], []⟩
      else ⟨srv, [], []⟩ := by
  unfold handleMessage
  rw [hfind]
  simp [isMutating]

theorem handleMessage_hello_eq (st : Store) (now : Nat) (srv : Server)
    (sid : Nat) (info : SessionInfo) (r : String)
    (hfind : srv.sessions.find? (fun i => i.id == sid) = some info) :
    handleMessage st now srv sid (.hello r) = handleHello now srv sid r := by
  unfold handleMessage
  rw [hfind]
  simp [isMutating]

theorem reject_of_holder (srv : Server) (info : SessionInfo)
    (hrole : info.role = Role.control)
    (hholder : srv.activeControllerId = some info.id) :
    rejectIfNotActiveController srv info = (false, []) := by
  unfold rejectIfNotActiveController
  rw [if_neg (by simp [hrole]), if_neg (by simp [hholder])]

theorem isClamped_dua (st : Store) (cur : AppState) (hc : IsClamped st cur) :
    clampDuaState st.duas
      (if cur.dua.duaId = "" then none else some cur.dua.duaId)
      (.num cur.dua.lineIndex) = cur.dua := by
  have hc' : clampAppState st cur.toCand = cur := hc
  have := congrArg AppState.dua hc'
  simpa [clampAppState, AppState.toCand, DuaPos.toCand] using this

theorem isClamped_quran (st : Store) (cur : AppState) (hc : IsClamped st cur) :
    clampQuranState st (.num cur.quran.surahNumber)
      (.num cur.quran.ayahNumber) = cur.quran := by
  have hc' : clampAppState st cur.toCand = cur := hc
  have := congrArg AppState.quran hc'
  simpa [clampAppState, AppState.toCand, QuranPos.toCand] using this

theorem clampAppState_mode_swap (st : Store) (cur : AppState) (m : Mode)
    (hc : IsClamped st cur) :
    clampAppState st ⟨m, cur.quran.toCand, cur.dua.toCand⟩ =
      ⟨resolveMode m cur.dua, cur.quran, cur.dua⟩ := by
  unfold clampAppState
  simp only [QuranPos.toCand, DuaPos.toCand]
  rw [isClamped_quran st cur hc, isClamped_dua st cur hc]

theorem setCurrentState_fst_clamped (st : Store) (hwf : StoreWF st)
    (cur : AppState) (next : CandState) (hc : IsClamped st cur) :
    IsClamped st (setCurrentState st cur next).1 := by
  rw [setCurrentState_eq]
  by_cases h : clampAppState st next = cur
  · rw [if_pos h]
    exact hc
  · rw [if_neg h]
    exact clampAppState_fix st hwf next

theorem setMode_fst (st : Store) (cur : AppState) (m : String)
    (hc : IsClamped st cur) :
    (setMode st cur m).1 = ⟨resolveMode (clampMode m) cur.dua, cur.quran, cur.dua⟩ := by
  unfold setMode
  have hcand : ({ cur.toCand with mode := clampMode m } : CandState) =
      ⟨clampMode m, cur.quran.toCand, cur.dua.toCand⟩ := rfl
  rw [hcand, setCurrentState_eq, clampAppState_mode_swap st cur (clampMode m) hc]
  by_cases h : (⟨resolveMode (clampMode m) cur.dua, cur.quran, cur.dua⟩ : AppState) = cur
  · rw [if_pos h]
    exact h.symm
  · rw [if_neg h]

/-- C8 (confirmed): switching the active domain and switching back restores
the exact prior Position State — the stored scripture and supplication
positions survive a `setMode` round trip over an unchanged content store. -/
theorem c8_domain_switch_roundtrip (st : Store) (hwf : StoreWF st)
    (cur : AppState) (hc : IsClamped st cur) (m1 m2 : String)
    (hswitch : clampMode m1 ≠ cur.mode) (hback : clampMode m2 = cur.mode) :
    (setMode st (setMode st cur m1).1 m2).1 = cur := by
  have hne : cur.dua.duaId ≠ "" := by
    rw [← isClamped_dua st cur hc]
    exact clampDuaState_ne_empty st hwf _ _
  have h1 : (setMode st cur m1).1 =
      ⟨resolveMode (clampMode m1) cur.dua, cur.quran, cur.dua⟩ :=
    setMode_fst st cur m1 hc
  have h1c : IsClamped st (setMode st cur m1).1 := by
    unfold setMode
    exact setCurrentState_fst_clamped st hwf cur _ hc
  have h2 : (setMode st (setMode st cur m1).1 m2).1 =
      ⟨resolveMode (clampMode m2) ((setMode st cur m1).1).dua,
       ((setMode st cur m1).1).quran, ((setMode st cur m1).1).dua⟩ :=
    setMode_fst st _ m2 h1c
  rw [h2, h1]
  have hres : resolveMode (clampMode m2) cur.dua = cur.mode := by
    rw [hback]
    cases hm : cur.mode with
    | quran => rfl
    | dua => simp [resolveMode, hne]
  cases cur with
  | mk m q d =>
      simp only at hres ⊢
      rw [hres]

/-- Witness for C8: round trip `quran → dua → quran` from the boot state of
the concrete store. -/
theorem c8_domain_switch_roundtrip_witness :
    IsClamped demoStore (initAppState demoStore) ∧
    clampMode "dua" ≠ (initAppState demoStore).mode ∧
    clampMode "quran" = (initAppState demoStore).mode ∧
    (setMode demoStore (setMode demoStore (initAppState demoStore) "dua").1
      "quran").1 = initAppState demoStore :=
  ⟨by unfold IsClamped; decide, by decide, by decide,
    c8_domain_switch_roundtrip demoStore demoStore_wf (initAppState demoStore)
      (by unfold IsClamped; decide) "dua" "quran" (by decide) (by decide)⟩

theorem steppedDuaTotal_eq (st : Store) (hwf : StoreWF st) (d : Dua)
    (hd : d ∈ st.duas) :
    steppedDuaTotal st.duas d.id = (d.lines.length : Int) := by
  have hget : duaGet st.duas d.id = some d := duaGet_self hwf.dua_ids_nodup d hd
  have hlen : d.lines.length ≠ 0 := by
    intro h0
    exact hwf.dua_lines_ne d hd (List.length_eq_zero.1 h0)
  unfold steppedDuaTotal
  rw [hget]
  simp [hlen]

/-- C7 (confirmed): an accepted mutating command broadcasts a `state_update`
to every registered session exactly when the clamped resulting Position
State differs from the prior one, and a supplication-domain `next` at the
last line of the current dua is a no-op with no broadcast. -/
theorem c7_broadcast_iff_changed (st : Store) (hwf : StoreWF st) :
    (∀ (now : Nat) (srv : Server) (sid : Nat) (info : SessionInfo) (msg : Msg),
       srv.sessions.find? (fun i => i.id == sid) = some info →
       isMutating msg = true →
       info.role = Role.control →
       srv.activeControllerId = some sid →
       ((handleMessage st now srv sid msg).server.state ≠ srv.state →
          (handleMessage st now srv sid msg).stateBroadcast =
            srv.sessions.map (fun i => i.id)) ∧
       ((handleMessage st now srv sid msg).server.state = srv.state →
          (handleMessage st now srv sid msg).stateBroadcast = [])) ∧
    (∀ (cur : AppState) (d : Dua),
       IsClamped st cur → cur.mode = Mode.dua →
       duaGet st.duas cur.dua.duaId = some d →
       cur.dua.lineIndex = (d.lines.length : Int) →
       stepActive st cur "next" = (cur, false)) := by
  constructor
  · intro now srv sid info msg hfind hmut hrole hholder
    have hid := find?_session_id hfind
    rw [handleMessage_mutating_eq st now srv sid info msg hfind hmut]
    unfold handleMutating
    rw [reject_of_holder srv info hrole (by rw [hholder, hid])]
    simp only [Bool.false_eq_true, if_false]
    rcases h2 : (applyMutation st srv.state msg).2 with _ | _
    · have h1 := (applyMutation_snd st srv.state msg).2 h2
      constructor
      · intro hne
        exact absurd h1 hne
      · intro _
        simp [h2]
    · have h1 := (applyMutation_snd st srv.state msg).1 h2
      constructor
      · intro _
        simp [h2, touchById_map_id]
      · intro heq
        exact absurd heq h1
  · intro cur d hc hmode hget hlast
    have hdc : steppedDuaClamped st.duas cur.dua = cur.dua := by
      unfold steppedDuaClamped
      exact isClamped_dua st cur hc
    have hmem : d ∈ st.duas := (duaGet_mem hget).1
    have hidd : d.id = cur.dua.duaId := (duaGet_mem hget).2
    have hlen : 1 ≤ (d.lines.length : Int) := by
      have : d.lines.length ≠ 0 := by
        intro h0
        exact hwf.dua_lines_ne d hmem (List.length_eq_zero.1 h0)
      omega
    have htot : steppedDuaTotal st.duas cur.dua.duaId = (d.lines.length : Int) := by
      rw [← hidd]
      exact steppedDuaTotal_eq st hwf d hmem
    have hstep : getSteppedDuaState st.duas cur.dua "next" = cur.dua := by
      unfold getSteppedDuaState
      rw [hdc, htot, hlast]
      have : max 1 (min (d.lines.length : Int)
          ((d.lines.length : Int) + (if ("next" : String) = "prev" then -1 else 1))) =
          (d.lines.length : Int) := by
        rw [if_neg (by decide)]
        omega
      rw [this, ← hlast]
    have hcand : ({ cur.toCand with
        dua := (getSteppedDuaState st.duas cur.dua "next").toCand } : CandState) =
        cur.toCand := by
      rw [hstep]
      rfl
    have hc' : clampAppState st cur.toCand = cur := hc
    unfold stepActive
    rw [if_neg (by simp), if_pos hmode, hcand, setCurrentState_eq, if_pos hc']

/-- Witness for C7: a holder-sent `next` at the boot state changes the state
and broadcasts to both registered sessions, and a dua-domain `next` at the
last line of `iftitah` is a no-op. -/
theorem c7_broadcast_iff_changed_witness :
    ((handleMessage demoStore 9
        ⟨[⟨1, Role.control, 0⟩, ⟨2, Role.display, 0⟩], 3, some 1,
          initAppState demoStore⟩ 1 .nextMsg).server.state ≠
        initAppState demoStore →
      (handleMessage demoStore 9
        ⟨[⟨1, Role.control, 0⟩, ⟨2, Role.display, 0⟩], 3, some 1,
          initAppState demoStore⟩ 1 .nextMsg).stateBroadcast = [1, 2]) ∧
    stepActive demoStore ⟨Mode.dua, ⟨1, 1⟩, ⟨"iftitah", 2⟩⟩ "next" =
      (⟨Mode.dua, ⟨1, 1⟩, ⟨"iftitah", 2⟩⟩, false) := by
  constructor
  · intro hne
    have h := ((c7_broadcast_iff_changed demoStore demoStore_wf).1 9
      ⟨[⟨1, Role.control, 0⟩, ⟨2, Role.display, 0⟩], 3, some 1,
        initAppState demoStore⟩ 1 ⟨1, Role.control, 0⟩ .nextMsg
      (by decide) (by decide) (by decide) (by decide)).1 hne
    rw [h]
    decide
  · exact (c7_broadcast_iff_changed demoStore demoStore_wf).2
      ⟨Mode.dua, ⟨1, 1⟩, ⟨"iftitah", 2⟩⟩
      ⟨"iftitah", "Dua al-Iftitah", [⟨"a1", "t1", "e1"⟩, ⟨"a2", "t2", "e2"⟩]⟩
      (by unfold IsClamped; decide) (by decide) (by decide) (by decide)

theorem getDefaultDuaId_norm (st : Store) (hwf : StoreWF st) :
    strNorm (getDefaultDuaId st.duas) = getDefaultDuaId st.duas := by
  unfold getDefaultDuaId
  split
  · decide
  · split
    · decide
    · rename_i d0 rest heq
      by_cases h : d0.id = ""
      · rw [if_pos h]
        decide
      · rw [if_neg h]
        exact (hwf.dua_id_norm d0 (by rw [heq]; exact List.mem_cons_self d0 rest)).1

theorem clampDuaState_unknown (st : Store) (hwf : StoreWF st)
    (handle : String) (li : JVal)
    (hmiss : duaGet st.duas (strNorm handle) = none) :
    ∃ d ∈ st.duas,
      duaGet st.duas (getDefaultDuaId st.duas) = some d ∧
      clampDuaState st.duas (some handle) li =
        ⟨d.id, max 1 (min (duaMaxLine d) (numOr1 li))⟩ := by
  obtain ⟨dDef, hmem, hDefGet, hDefId⟩ := duaGet_default st hwf
  refine ⟨dDef, hmem, hDefGet, ?_⟩
  unfold clampDuaState
  by_cases h0 : handle = ""
  · have hreq : requestedDuaId st.duas (some handle) = getDefaultDuaId st.duas := by
      unfold requestedDuaId
      rw [h0]
      simp only [if_pos rfl]
      exact getDefaultDuaId_norm st hwf
    rw [hreq, hDefGet]
    simp only [Option.orElse]
  · have hreq : requestedDuaId st.duas (some handle) = strNorm handle := by
      unfold requestedDuaId
      simp only [if_neg h0]
    rw [hreq, hmiss]
    simp only [Option.orElse]
    rw [hDefGet]

/-- C10 (confirmed): an accepted `setDua` whose normalised handle matches no
loaded dua stores the default dua (`iftitah` when loaded, else the first
loaded dua) with the requested line index clamped to that dua's line count;
the command is not rejected and the previous dua is not kept. -/
theorem c10_unknown_handle_fallback (st : Store) (hwf : StoreWF st)
    (cur : AppState) (handle : String) (li : JVal)
    (hmiss : duaGet st.duas (strNorm handle) = none) :
    ∃ d ∈ st.duas,
      duaGet st.duas (getDefaultDuaId st.duas) = some d ∧
      ((setDua st cur (some handle) li).1).dua.duaId = d.id ∧
      1 ≤ ((setDua st cur (some handle) li).1).dua.lineIndex ∧
      ((setDua st cur (some handle) li).1).dua.lineIndex ≤
        (d.lines.length : Int) := by
  obtain ⟨d, hmem, hDefGet, hval⟩ := clampDuaState_unknown st hwf handle li hmiss
  have hfix := clampDuaState_fix st hwf (some handle) li
  have hdua : ((setDua st cur (some handle) li).1).dua =
      clampDuaState st.duas (some handle) li := by
    unfold setDua
    rw [setCurrentState_fst_dua]
    show clampDuaState st.duas
        (DuaPos.toCand (clampDuaState st.duas (some handle) li)).duaId
        (DuaPos.toCand (clampDuaState st.duas (some handle) li)).lineIndex =
      clampDuaState st.duas (some handle) li
    unfold DuaPos.toCand
    exact hfix
  have hlen : d.lines.length ≠ 0 := by
    intro h0
    exact hwf.dua_lines_ne d hmem (List.length_eq_zero.1 h0)
  have hlen1 : 1 ≤ (d.lines.length : Int) := by omega
  refine ⟨d, hmem, hDefGet, ?_, ?_, ?_⟩
  · rw [hdua, hval]
  · rw [hdua, hval]
    simp only
    omega
  · rw [hdua, hval]
    simp only [duaMaxLine, if_neg hlen]
    omega

/-- Witness for C10: `setDua` with the unknown handle `" GHUFRAN "` from the
boot state falls back to `iftitah` with the huge line index clamped to 2. -/
theorem c10_unknown_handle_fallback_witness :
    duaGet demoStore.duas (strNorm " GHUFRAN ") = none ∧
    ∃ d ∈ demoStore.duas,
      duaGet demoStore.duas (getDefaultDuaId demoStore.duas) = some d ∧
      ((setDua demoStore (initAppState demoStore) (some " GHUFRAN ")
          (.num 999)).1).dua.duaId = d.id ∧
      1 ≤ ((setDua demoStore (initAppState demoStore) (some " GHUFRAN ")
          (.num 999)).1).dua.lineIndex ∧
      ((setDua demoStore (initAppState demoStore) (some " GHUFRAN ")
          (.num 999)).1).dua.lineIndex ≤ (d.lines.length : Int) :=
  ⟨by decide,
    c10_unknown_handle_fallback demoStore demoStore_wf (initAppState demoStore)
      " GHUFRAN " (.num 999) (by decide)⟩

theorem abs_touchById (now sid : Nat) (l : List SessionInfo) :
    absSessions (touchById now sid l) = absSessions l := by
  induction l with
  | nil => rfl
  | cons i rest ih =>
      unfold touchById
      by_cases h : i.id = sid
      · rw [if_pos h]
        simp [absSessions]
      · rw [if_neg h]
        simp only [absSessions, List.map_cons]
        congr 1

theorem abs_promoteFirst (now : Nat) (ex : Option Nat) (l : List SessionInfo) :
    absSessions (promoteFirst now ex l).2 = absSessions l := by
  induction l with
  | nil => rfl
  | cons i rest ih =>
      unfold promoteFirst
      by_cases h : i.role = Role.control ∧ ex ≠ some i.id
      · rw [if_pos h]
        simp [absSessions]
      · rw [if_neg h]
        simp only [absSessions, List.map_cons]
        congr 1

theorem promoteFirst_holder (now : Nat) (ex : Option Nat) (l : List SessionInfo) :
    ∀ cid, (promoteFirst now ex l).1 = some cid →
      (cid, Role.control) ∈ absSessions (promoteFirst now ex l).2 ∧ ex ≠ some cid := by
  induction l with
  | nil => intro cid h; cases h
  | cons i rest ih =>
      intro cid h
      unfold promoteFirst at h ⊢
      by_cases hc : i.role = Role.control ∧ ex ≠ some i.id
      · rw [if_pos hc] at h ⊢
        have : i.id = cid := by simpa using h
        subst this
        exact ⟨by simp [absSessions, hc.1], hc.2⟩
      · rw [if_neg hc] at h ⊢
        obtain ⟨hmem, hex⟩ := ih cid h
        exact ⟨by simp [absSessions] at hmem ⊢; exact Or.inr hmem, hex⟩

theorem abs_setRoleById_rev (r : Role) (sid : Nat) (l : List SessionInfo) :
    ∀ p ∈ absSessions (setRoleById r sid l),
      p ∈ absSessions l ∨ (p.1 = sid ∧ p.2 = r) := by
  induction l with
  | nil => intro p hp; cases hp
  | cons i rest ih =>
      intro p hp
      unfold setRoleById at hp
      by_cases h : i.id = sid
      · rw [if_pos h] at hp
        simp only [absSessions, List.map_cons, List.mem_cons] at hp
        rcases hp with hp | hp
        · right
          rw [hp]
          exact ⟨h, rfl⟩
        · left
          simp only [absSessions, List.map_cons, List.mem_cons]
          exact Or.inr hp
      · rw [if_neg h] at hp
        simp only [absSessions, List.map_cons, List.mem_cons] at hp
        rcases hp with hp | hp
        · left
          simp only [absSessions, List.map_cons, List.mem_cons]
          exact Or.inl hp
        · rcases ih p hp with hin | hin
          · left
            simp only [absSessions, List.map_cons, List.mem_cons]
            exact Or.inr (by simpa [absSessions] using hin)
          · right
            exact hin

theorem abs_setRoleById_ne (r : Role) (sid : Nat) (l : List SessionInfo) :
    ∀ p ∈ absSessions l, p.1 ≠ sid → p ∈ absSessions (setRoleById r sid l) := by
  induction l with
  | nil => intro p hp; cases hp
  | cons i rest ih =>
      intro p hp hne
      unfold setRoleById
      simp only [absSessions, List.map_cons, List.mem_cons] at hp
      by_cases h : i.id = sid
      · rw [if_pos h]
        rcases hp with hp | hp
        · exact absurd (show p.1 = sid by rw [hp]; exact h) hne
        · simp only [absSessions, List.map_cons, List.mem_cons]
          exact Or.inr (by simpa [absSessions] using hp)
      · rw [if_neg h]
        rcases hp with hp | hp
        · simp only [absSessions, List.map_cons, List.mem_cons]
          exact Or.inl hp
        · simp only [absSessions, List.map_cons, List.mem_cons]
          exact Or.inr (by simpa [absSessions] using ih p (by simpa [absSessions] using hp) hne)

theorem abs_filter_ne (sid : Nat) (l : List SessionInfo) :
    ∀ p ∈ absSessions l, p.1 ≠ sid →
      p ∈ absSessions (l.filter (fun i => i.id ≠ sid)) := by
  induction l with
  | nil => intro p hp; cases hp
  | cons i rest ih =>
      intro p hp hne
      simp only [absSessions, List.map_cons, List.mem_cons] at hp
      rcases hp with hp | hp
      · have hi : i.id ≠ sid := by
          intro he
          apply hne
          rw [hp]
          exact he
        rw [List.filter_cons_of_pos (by simpa using hi)]
        simp only [absSessions, List.map_cons, List.mem_cons]
        exact Or.inl hp
      · by_cases hi : i.id = sid
        · rw [List.filter_cons_of_neg (by simpa using hi)]
          exact ih p (by simpa [absSessions] using hp) hne
        · rw [List.filter_cons_of_pos (by simpa using hi)]
          simp only [absSessions, List.map_cons, List.mem_cons]
          exact Or.inr (by simpa [absSessions] using ih p (by simpa [absSessions] using hp) hne)

theorem abs_filter_sub (sid : Nat) (l : List SessionInfo) :
    ∀ p ∈ absSessions (l.filter (fun i => i.id ≠ sid)), p ∈ absSessions l := by
  intro p hp
  simp only [absSessions, List.mem_map] at hp ⊢
  obtain ⟨i, hi, hpi⟩ := hp
  exact ⟨i, List.mem_of_mem_filter hi, hpi⟩

theorem find?_setRoleById (r : Role) (sid : Nat) (l : List SessionInfo) :
    (setRoleById r sid l).find? (fun i => i.id == sid) =
      (l.find? (fun i => i.id == sid)).map (fun i => { i with role := r }) := by
  induction l with
  | nil => rfl
  | cons i rest ih =>
      unfold setRoleById
      by_cases h : i.id = sid
      · rw [if_pos h]
        rw [List.find?_cons_of_pos _ (by simpa using h),
            List.find?_cons_of_pos _ (by simpa using h)]
        rfl
      · rw [if_neg h]
        rw [List.find?_cons_of_neg _ (by simpa using h),
            List.find?_cons_of_neg _ (by simpa using h)]
        exact ih

theorem find?_touchById (now sid : Nat) (l : List SessionInfo) :
    (touchById now sid l).find? (fun i => i.id == sid) =
      (l.find? (fun i => i.id == sid)).map
        (fun i => { i with lastHeartbeatAt := now }) := by
  induction l with
  | nil => rfl
  | cons i rest ih =>
      unfold touchById
      by_cases h : i.id = sid
      · rw [if_pos h]
        rw [List.find?_cons_of_pos _ (by simpa using h),
            List.find?_cons_of_pos _ (by simpa using h)]
        rfl
      · rw [if_neg h]
        rw [List.find?_cons_of_neg _ (by simpa using h),
            List.find?_cons_of_neg _ (by simpa using h)]
        exact ih

/-- C9 (confirmed): a `heartbeat` refreshes the sender's liveness timestamp
exactly when the sender is a controller-role session holding the lock; any
other heartbeat is accepted silently (no reply, no error) and changes
nothing. -/
theorem c9_heartbeat_authorization (st : Store) (now : Nat) (srv : Server)
    (sid : Nat) (info : SessionInfo)
    (hfind : srv.sessions.find? (fun i => i.id == sid) = some info) :
    ((info.role = Role.control ∧ srv.activeControllerId = some sid) →
       handleMessage st now srv sid .heartbeat =
         ⟨{ srv with sessions := touchById now sid srv.sessions }, [], []⟩) ∧
    (¬(info.role = Role.control ∧ srv.activeControllerId = some sid) →
       handleMessage st now srv sid .heartbeat = ⟨srv, [], []⟩) := by
  rw [handleMessage_heartbeat_eq st now srv sid info hfind]
  constructor
  · intro h
    rw [if_pos h]
  · intro h
    rw [if_neg h]

/-- Witness for C9: the lock-holding controller's heartbeat refreshes its
timestamp; a non-holder controller's heartbeat changes nothing. -/
theorem c9_heartbeat_authorization_witness :
    handleMessage demoStore 42
      ⟨[⟨1, Role.control, 0⟩, ⟨2, Role.control, 0⟩], 3, some 1,
        initAppState demoStore⟩ 1 .heartbeat =
      ⟨⟨[⟨1, Role.control, 42⟩, ⟨2, Role.control, 0⟩], 3, some 1,
        initAppState demoStore⟩, [], []⟩ ∧
    handleMessage demoStore 42
      ⟨[⟨1, Role.control, 0⟩, ⟨2, Role.control, 0⟩], 3, some 1,
        initAppState demoStore⟩ 2 .heartbeat =
      ⟨⟨[⟨1, Role.control, 0⟩, ⟨2, Role.control, 0⟩], 3, some 1,
        initAppState demoStore⟩, [], []⟩ := by
  constructor
  · have h := (c9_heartbeat_authorization demoStore 42
      ⟨[⟨1, Role.control, 0⟩, ⟨2, Role.control, 0⟩], 3, some 1,
        initAppState demoStore⟩ 1 ⟨1, Role.control, 0⟩ (by decide)).1
      ⟨rfl, rfl⟩
    rw [h]
    decide
  · exact (c9_heartbeat_authorization demoStore 42
      ⟨[⟨1, Role.control, 0⟩, ⟨2, Role.control, 0⟩], 3, some 1,
        initAppState demoStore⟩ 2 ⟨2, Role.control, 0⟩ (by decide)).2
      (by decide)

/-- C3 counterexample: a display-role (non-controller) session sending
`setMode` receives only the error reply — no `control_lock` record — so the
claim that every rejected sender also receives a lock-status record is
false. -/
theorem c3_nonholder_rejection_cex :
    (handleMessage demoStore 5
      ⟨[⟨1, Role.display, 0⟩], 2, none, initAppState demoStore⟩ 1
      (.setModeMsg "dua")).toSender =
      [.errorReply "Only control clients can update state."] ∧
    Reply.controlLockReply ∉
      (handleMessage demoStore 5
        ⟨[⟨1, Role.display, 0⟩], 2, none, initAppState demoStore⟩ 1
        (.setModeMsg "dua")).toSender ∧
    (handleMessage demoStore 5
      ⟨[⟨1, Role.display, 0⟩], 2, none, initAppState demoStore⟩ 1
      (.setModeMsg "dua")).server.state = initAppState demoStore := by
  refine ⟨by decide, by decide, by decide⟩

/-- C3 (corrected): a mutating command from any session that is not the
active controller leaves the entire server state unchanged (no Position
State change, no liveness refresh) and triggers no broadcast; the sender
always receives an error reply, but the `control_lock` resynchronisation
record is sent only when the sender is a controller-role session that does
not hold the lock — a non-controller sender gets the error alone. -/
theorem c3_nonholder_rejection (st : Store) (now : Nat) (srv : Server)
    (sid : Nat) (info : SessionInfo) (msg : Msg)
    (hfind : srv.sessions.find? (fun i => i.id == sid) = some info)
    (hmut : isMutating msg = true)
    (hnot : ¬(info.role = Role.control ∧ srv.activeControllerId = some sid)) :
    (handleMessage st now srv sid msg).server = srv ∧
    (handleMessage st now srv sid msg).stateBroadcast = [] ∧
    (handleMessage st now srv sid msg).toSender =
      (if info.role = Role.control then
        [.errorReply "Controller lock active on another device.",
         .controlLockReply]
      else [.errorReply "Only control clients can update state."]) := by
  have hid := find?_session_id hfind
  rw [handleMessage_mutating_eq st now srv sid info msg hfind hmut]
  unfold handleMutating
  by_cases hrole : info.role = Role.control
  · have hh : srv.activeControllerId ≠ some info.id := by
      rw [hid]
      intro he
      exact hnot ⟨hrole, he⟩
    have hrej : rejectIfNotActiveController srv info =
        (true, [.errorReply "Controller lock active on another device.",
                .controlLockReply]) := by
      unfold rejectIfNotActiveController
      rw [if_neg (by simp [hrole]), if_pos hh]
    rw [hrej, if_pos rfl, if_pos hrole]
    exact ⟨rfl, rfl, rfl⟩
  · have hrej : rejectIfNotActiveController srv info =
        (true, [.errorReply "Only control clients can update state."]) := by
      unfold rejectIfNotActiveController
      rw [if_pos hrole]
    rw [hrej, if_pos rfl, if_neg hrole]
    exact ⟨rfl, rfl, rfl⟩

/-- Witness for the corrected C3: a controller-role session that does not
hold the lock gets the error plus the `control_lock` record and nothing
changes. -/
theorem c3_nonholder_rejection_witness :
    (handleMessage demoStore 5
      ⟨[⟨1, Role.control, 0⟩, ⟨2, Role.control, 0⟩], 3, some 1,
        initAppState demoStore⟩ 2 (.setQuranMsg (.num 2) (.num 3))).server =
      ⟨[⟨1, Role.control, 0⟩, ⟨2, Role.control, 0⟩], 3, some 1,
        initAppState demoStore⟩ ∧
    (handleMessage demoStore 5
      ⟨[⟨1, Role.control, 0⟩, ⟨2, Role.control, 0⟩], 3, some 1,
        initAppState demoStore⟩ 2 (.setQuranMsg (.num 2) (.num 3))).stateBroadcast = [] ∧
    (handleMessage demoStore 5
      ⟨[⟨1, Role.control, 0⟩, ⟨2, Role.control, 0⟩], 3, some 1,
        initAppState demoStore⟩ 2 (.setQuranMsg (.num 2) (.num 3))).toSender =
      [.errorReply "Controller lock active on another device.",
       .controlLockReply] := by
  have h := c3_nonholder_rejection demoStore 5
    ⟨[⟨1, Role.control, 0⟩, ⟨2, Role.control, 0⟩], 3, some 1,
      initAppState demoStore⟩ 2 ⟨2, Role.control, 0⟩
    (.setQuranMsg (.num 2) (.num 3)) (by decide) (by decide) (by decide)
  refine ⟨h.1, h.2.1, ?_⟩
  rw [h.2.2]
  decide

theorem find?_of_mem_id {l : List SessionInfo} {sid : Nat}
    (h : ∃ i ∈ l, i.id = sid) :
    ∃ info, l.find? (fun i => i.id == sid) = some info := by
  rcases hf : l.find? (fun i => i.id == sid) with _ | info
  · exfalso
    obtain ⟨i, hi, hid⟩ := h
    rw [List.find?_eq_none] at hf
    have := hf i hi
    simp [hid] at this
  · exact ⟨info, hf⟩

theorem claimController_sessions (now sid : Nat) (srv : Server)
    (info : SessionInfo)
    (hfind : srv.sessions.find? (fun i => i.id == sid) = some info)
    (hrole : info.role = Role.control) :
    (claimController now sid srv).sessions = touchById now sid srv.sessions := by
  unfold claimController
  rw [hfind]
  simp only [hrole, if_pos rfl]
  by_cases hh : srv.activeControllerId = none
  · rw [if_pos hh]
    simp
  · rw [if_neg hh]
    simp

/-- C2 counterexample: on one connection, a second `hello` with a different
role is not ignored — after `hello control` then `hello display` the stored
role is `display`, not the `control` set by the first declaration. -/
theorem c2_role_settable_once_cex :
    roleOf (run demoStore 15000
      [.connect 0, .message 1 (.hello "control") 1]) 1 = some Role.control ∧
    roleOf (run demoStore 15000
      [.connect 0, .message 1 (.hello "control") 1,
       .message 1 (.hello "display") 2]) 1 = some Role.display := by
  refine ⟨by decide, by decide⟩

/-- C2 (corrected): the `hello` handler assigns the declared role
unconditionally — every role declaration on a connection overwrites the
stored role, so the last declaration wins for the rest of the connection,
rather than the first declaration being permanent. -/
theorem c2_role_last_write_wins (st : Store) (now : Nat) (srv : Server)
    (sid : Nat) (r : String) (hreg : ∃ i ∈ srv.sessions, i.id = sid) :
    roleOf (handleMessage st now srv sid (.hello r)).server sid =
      some (normalizeRole r) := by
  obtain ⟨info, hfind⟩ := find?_of_mem_id hreg
  rw [handleMessage_hello_eq st now srv sid info r hfind]
  unfold handleHello
  by_cases hr : normalizeRole r = Role.control
  · rw [if_pos hr]
    have hfind1 : (setRoleById (normalizeRole r) sid srv.sessions).find?
        (fun i => i.id == sid) = some { info with role := normalizeRole r } := by
      rw [find?_setRoleById, hfind]
      rfl
    have hsess := claimController_sessions now sid
      { srv with sessions := setRoleById (normalizeRole r) sid srv.sessions }
      { info with role := normalizeRole r } hfind1 hr
    unfold roleOf
    rw [hsess, find?_touchById, hfind1]
    rfl
  · rw [if_neg hr]
    unfold roleOf
    simp only
    rw [find?_setRoleById, hfind]
    rfl

/-- Witness for the corrected C2: a registered session that declared
`control` re-declares `display` and its stored role becomes `display`. -/
theorem c2_role_last_write_wins_witness :
    roleOf (handleMessage demoStore 3
      ⟨[⟨1, Role.control, 0⟩], 2, some 1, initAppState demoStore⟩ 1
      (.hello "display")).server 1 = some (normalizeRole "display") :=
  c2_role_last_write_wins demoStore 3
    ⟨[⟨1, Role.control, 0⟩], 2, some 1, initAppState demoStore⟩ 1 "display"
    ⟨⟨1, Role.control, 0⟩, by decide, rfl⟩

theorem promoteFirst_none_of (now : Nat) (ex : Option Nat)
    (l : List SessionInfo)
    (h : ∀ i ∈ l, ¬(i.role = Role.control ∧ ex ≠ some i.id)) :
    promoteFirst now ex l = (none, l) := by
  induction l with
  | nil => rfl
  | cons i rest ih =>
      unfold promoteFirst
      rw [if_neg (h i (List.mem_cons_self i rest))]
      rw [ih (fun j hj => h j (List.mem_cons_of_mem i hj))]

theorem promoteFirst_split (now : Nat) (ex : Option Nat)
    (l1 l2 : List SessionInfo) (s : SessionInfo)
    (h1 : ∀ x ∈ l1, ¬(x.role = Role.control ∧ ex ≠ some x.id))
    (h2 : s.role = Role.control ∧ ex ≠ some s.id) :
    promoteFirst now ex (l1 ++ s :: l2) =
      (some s.id, l1 ++ { s with lastHeartbeatAt := now } :: l2) := by
  induction l1 with
  | nil =>
      simp only [List.nil_append]
      unfold promoteFirst
      rw [if_pos h2]
  | cons x xs ih =>
      simp only [List.cons_append]
      unfold promoteFirst
      rw [if_neg (h1 x (List.mem_cons_self x xs))]
      rw [ih (fun j hj => h1 j (List.mem_cons_of_mem x hj))]

theorem releaseActiveController_eq (now : Nat) (srv : Server)
    (excluded : Option Nat) (r : Nat)
    (hheld : srv.activeControllerId = some r) :
    releaseActiveController now srv excluded =
      { srv with
        activeControllerId := (promoteFirst now excluded srv.sessions).1,
        sessions := (promoteFirst now excluded srv.sessions).2 } := by
  unfold releaseActiveController
  rw [hheld]

/-- C4 (confirmed): releasing a held lock clears the holder and scans the
registry in insertion order; if no controller-role session other than the
excluded id exists, the lock stays free and the registry is untouched, and
otherwise exactly the first such session becomes the holder with its
liveness timestamp reset to now, every other entry unchanged. -/
theorem c4_release_promotion (now : Nat) (srv : Server) (excluded : Option Nat)
    (r : Nat) (hheld : srv.activeControllerId = some r) :
    ((∀ i ∈ srv.sessions, ¬(i.role = Role.control ∧ excluded ≠ some i.id)) →
       (releaseActiveController now srv excluded).activeControllerId = none ∧
       (releaseActiveController now srv excluded).sessions = srv.sessions) ∧
    (∀ (l1 l2 : List SessionInfo) (s : SessionInfo),
       srv.sessions = l1 ++ s :: l2 →
       (∀ x ∈ l1, ¬(x.role = Role.control ∧ excluded ≠ some x.id)) →
       s.role = Role.control → excluded ≠ some s.id →
       (releaseActiveController now srv excluded).activeControllerId = some s.id ∧
       (releaseActiveController now srv excluded).sessions =
         l1 ++ { s with lastHeartbeatAt := now } :: l2) := by
  rw [releaseActiveController_eq now srv excluded r hheld]
  constructor
  · intro h
    rw [promoteFirst_none_of now excluded srv.sessions h]
    exact ⟨rfl, rfl⟩
  · intro l1 l2 s hsplit h1 h2 h3
    rw [hsplit, promoteFirst_split now excluded l1 l2 s h1 ⟨h2, h3⟩]
    exact ⟨rfl, rfl⟩

/-- Witness for C4: releasing with holder 1 excluded, over a registry
`[controller 1, display 2, controller 3]`, promotes exactly session 3 with
its timestamp reset. -/
theorem c4_release_promotion_witness :
    (releaseActiveController 77
      ⟨[⟨1, Role.control, 0⟩, ⟨2, Role.display, 0⟩, ⟨3, Role.control, 0⟩], 4,
        some 1, initAppState demoStore⟩ (some 1)).activeControllerId = some 3 ∧
    (releaseActiveController 77
      ⟨[⟨1, Role.control, 0⟩, ⟨2, Role.display, 0⟩, ⟨3, Role.control, 0⟩], 4,
        some 1, initAppState demoStore⟩ (some 1)).sessions =
      [⟨1, Role.control, 0⟩, ⟨2, Role.display, 0⟩] ++
        [{ (⟨3, Role.control, 0⟩ : SessionInfo) with lastHeartbeatAt := 77 }] :=
  (c4_release_promotion 77
    ⟨[⟨1, Role.control, 0⟩, ⟨2, Role.display, 0⟩, ⟨3, Role.control, 0⟩], 4,
      some 1, initAppState demoStore⟩ (some 1) 1 rfl).2
    [⟨1, Role.control, 0⟩, ⟨2, Role.display, 0⟩] [] ⟨3, Role.control, 0⟩
    (by decide) (by decide) (by decide) (by decide)

theorem holderRegistered_iff (srv : Server) :
    holderRegistered srv = true ↔ RegInvP srv := by
  unfold holderRegistered RegInvP
  cases h : srv.activeControllerId with
  | none => simp
  | some c =>
      simp only [List.any_eq_true, absSessions, List.map_map, List.mem_map,
        Option.some.injEq, Function.comp, beq_iff_eq]
      constructor
      · rintro ⟨i, hi, hip⟩ cid hc
        subst hc
        exact ⟨i, hi, hip⟩
      · rintro hh
        obtain ⟨i, hi, hip⟩ := hh c rfl
        exact ⟨i, hi, hip⟩

theorem holderOk_iff (srv : Server) :
    holderOk srv = true ↔ ControlInvP srv := by
  unfold holderOk ControlInvP
  cases h : srv.activeControllerId with
  | none => simp
  | some c =>
      simp only [List.any_eq_true, absSessions, List.mem_map, Option.some.injEq,
        Bool.and_eq_true, beq_iff_eq]
      constructor
      · rintro ⟨i, hi, hid, hrole⟩ cid hc
        subst hc
        exact ⟨i, hi, by rw [hid, hrole]⟩
      · rintro hh
        obtain ⟨i, hi, hpi⟩ := hh c rfl
        have h1 : i.id = c := congrArg Prod.fst hpi
        have h2 : i.role = Role.control := congrArg Prod.snd hpi
        exact ⟨i, hi, h1, h2⟩

theorem handleHello_server_cases (now : Nat) (srv : Server) (sid : Nat)
    (r : String) :
    (handleHello now srv sid r).server =
      { srv with sessions := setRoleById (normalizeRole r) sid srv.sessions } ∨
    (handleHello now srv sid r).server =
      claimController now sid
        { srv with sessions := setRoleById (normalizeRole r) sid srv.sessions } := by
  unfold handleHello
  by_cases h : normalizeRole r = Role.control
  · rw [if_pos h]
    exact Or.inr rfl
  · rw [if_neg h]
    exact Or.inl rfl

theorem claimController_cases (now sid : Nat) (srv : Server) :
    claimController now sid srv = srv ∨
    (∃ info, srv.sessions.find? (fun i => i.id == sid) = some info ∧
      info.role = Role.control ∧
      (claimController now sid srv =
          ⟨touchById now sid srv.sessions, srv.counter, some sid, srv.state⟩ ∧
          srv.activeControllerId = none ∨
        claimController now sid srv =
          ⟨touchById now sid srv.sessions, srv.counter, srv.activeControllerId,
           srv.state⟩)) := by
  rcases hfind : srv.sessions.find? (fun i => i.id == sid) with _ | info
  · left
    unfold claimController
    rw [hfind]
  · by_cases hrole : info.role = Role.control
    · right
      refine ⟨info, hfind, hrole, ?_⟩
      by_cases hh : srv.activeControllerId = none
      · left
        refine ⟨?_, hh⟩
        unfold claimController
        rw [hfind]
        simp only [hrole, if_pos rfl]
        rw [if_pos hh]
        simp
      · right
        unfold claimController
        rw [hfind]
        simp only [hrole, if_pos rfl]
        rw [if_neg hh]
        simp
    · left
      unfold claimController
      rw [hfind]
      simp only [if_neg hrole]

theorem handleMessage_server_cases (st : Store) (now : Nat) (srv : Server)
    (sid : Nat) (msg : Msg) :
    (handleMessage st now srv sid msg).server = srv ∨
    (∃ stt, (handleMessage st now srv sid msg).server =
       ⟨touchById now sid srv.sessions, srv.counter, srv.activeControllerId,
        stt⟩) ∨
    (∃ r, msg = .hello r ∧
      (handleMessage st now srv sid msg).server =
        (handleHello now srv sid r).server) := by
  rcases hfind : srv.sessions.find? (fun i => i.id == sid) with _ | info
  · left
    unfold handleMessage
    rw [hfind]
  · have hmutcase : isMutating msg = true →
        (handleMessage st now srv sid msg).server = srv ∨
        ∃ stt, (handleMessage st now srv sid msg).server =
          ⟨touchById now sid srv.sessions, srv.counter,
           srv.activeControllerId, stt⟩ := by
      intro hmut
      rw [handleMessage_mutating_eq st now srv sid info msg hfind hmut]
      unfold handleMutating
      rcases hrej : (rejectIfNotActiveController srv info).1 with _ | _
      · right
        exact ⟨(applyMutation st srv.state msg).1, by simp⟩
      · left
        simp
    cases msg with
    | hello r =>
        right; right
        exact ⟨r, rfl, by rw [handleMessage_hello_eq st now srv sid info r hfind]⟩
    | heartbeat =>
        rw [handleMessage_heartbeat_eq st now srv sid info hfind]
        by_cases h : info.role = Role.control ∧ srv.activeControllerId = some sid
        · right; left
          rw [if_pos h]
          exact ⟨srv.state, rfl⟩
        · left
          rw [if_neg h]
    | requestState =>
        left
        unfold handleMessage
        rw [hfind]
        simp [isMutating]
    | unrecognized =>
        left
        unfold handleMessage
        rw [hfind]
        simp [isMutating]
    | setModeMsg m =>
        rcases hmutcase rfl with h | h
        · exact Or.inl h
        · exact Or.inr (Or.inl h)
    | setQuranMsg s a =>
        rcases hmutcase rfl with h | h
        · exact Or.inl h
        · exact Or.inr (Or.inl h)
    | setDuaMsg d l =>
        rcases hmutcase rfl with h | h
        · exact Or.inl h
        · exact Or.inr (Or.inl h)
    | nextMsg =>
        rcases hmutcase rfl with h | h
        · exact Or.inl h
        · exact Or.inr (Or.inl h)
    | prevMsg =>
        rcases hmutcase rfl with h | h
        · exact Or.inl h
        · exact Or.inr (Or.inl h)
    | stepMsg dir =>
        rcases hmutcase rfl with h | h
        · exact Or.inl h
        · exact Or.inr (Or.inl h)
    | setStateMsg s a =>
        rcases hmutcase rfl with h | h
        · exact Or.inl h
        · exact Or.inr (Or.inl h)

theorem fst_abs_setRoleById (r : Role) (sid : Nat) (l : List SessionInfo) :
    (absSessions (setRoleById r sid l)).map Prod.fst =
      (absSessions l).map Prod.fst := by
  induction l with
  | nil => rfl
  | cons i rest ih =>
      unfold setRoleById
      by_cases h : i.id = sid
      · rw [if_pos h]
        simp [absSessions]
      · rw [if_neg h]
        simp only [absSessions, List.map_cons, List.map_map] at ih ⊢
        rw [ih]

theorem fst_abs_touchById (now sid : Nat) (l : List SessionInfo) :
    (absSessions (touchById now sid l)).map Prod.fst =
      (absSessions l).map Prod.fst := by
  rw [abs_touchById]

theorem fst_abs_promoteFirst (now : Nat) (ex : Option Nat)
    (l : List SessionInfo) :
    (absSessions (promoteFirst now ex l).2).map Prod.fst =
      (absSessions l).map Prod.fst := by
  rw [abs_promoteFirst]

theorem fst_abs_filter_sub (sid : Nat) (l : List SessionInfo) :
    ∀ cid, cid ∈ (absSessions (l.filter (fun i => i.id ≠ sid))).map Prod.fst →
      cid ∈ (absSessions l).map Prod.fst := by
  intro cid hc
  simp only [List.mem_map] at hc ⊢
  obtain ⟨p, hp, hpc⟩ := hc
  exact ⟨p, abs_filter_sub sid l p hp, hpc⟩

theorem mem_fst_of_mem_abs {l : List SessionInfo} {p : Nat × Role}
    (hp : p ∈ absSessions l) : p.1 ∈ (absSessions l).map Prod.fst :=
  List.mem_map_of_mem Prod.fst hp

theorem stepEvent_regInv (st : Store) (timeout : Nat) (srv : Server)
    (e : Event) (h : RegInvP srv) : RegInvP (stepEvent st timeout srv e) := by
  cases e with
  | connect now =>
      intro cid hcid
      have hmem := h cid hcid
      show cid ∈ (absSessions
        (srv.sessions ++ [⟨srv.counter, Role.unknown, now⟩])).map Prod.fst
      simp only [absSessions, List.map_append, List.map_map, List.mem_append]
      left
      simpa [absSessions, List.map_map] using hmem
  | message sid msg now =>
      show RegInvP (handleMessage st now srv sid msg).server
      rcases handleMessage_server_cases st now srv sid msg with
        hs | ⟨stt, hs⟩ | ⟨r, hmsg, hs⟩
      · rw [hs]
        exact h
      · rw [hs]
        intro cid hcid
        have hmem := h cid hcid
        show cid ∈ (absSessions (touchById now sid srv.sessions)).map Prod.fst
        rw [fst_abs_touchById]
        exact hmem
      · rw [hs]
        rcases handleHello_server_cases now srv sid r with hh | hh
        · rw [hh]
          intro cid hcid
          have hmem := h cid hcid
          show cid ∈ (absSessions
            (setRoleById (normalizeRole r) sid srv.sessions)).map Prod.fst
          rw [fst_abs_setRoleById]
          exact hmem
        · rw [hh]
          rcases claimController_cases now sid
              { srv with sessions := setRoleById (normalizeRole r) sid srv.sessions }
            with hc | ⟨info, hfind, hrole, hc | hc⟩
          · rw [hc]
            intro cid hcid
            have hmem := h cid hcid
            show cid ∈ (absSessions
              (setRoleById (normalizeRole r) sid srv.sessions)).map Prod.fst
            rw [fst_abs_setRoleById]
            exact hmem
          · rw [hc.1]
            intro cid hcid
            have hsid : sid = cid := by simpa using hcid
            subst hsid
            have hinfo : info ∈ setRoleById (normalizeRole r) sid srv.sessions :=
              List.mem_of_find?_eq_some hfind
            have hid : info.id = sid := find?_session_id hfind
            show sid ∈ (absSessions
              (touchById now sid (setRoleById (normalizeRole r) sid
                srv.sessions))).map Prod.fst
            rw [fst_abs_touchById]
            have : (info.id, info.role) ∈
                absSessions (setRoleById (normalizeRole r) sid srv.sessions) :=
              List.mem_map_of_mem _ hinfo
            have := mem_fst_of_mem_abs this
            rw [hid] at this
            exact this
          · rw [hc]
            intro cid hcid
            have hmem := h cid hcid
            show cid ∈ (absSessions
              (touchById now sid (setRoleById (normalizeRole r) sid
                srv.sessions))).map Prod.fst
            rw [fst_abs_touchById, fst_abs_setRoleById]
            exact hmem
  | disconnect sid now =>
      simp only [stepEvent]
      split
      · exact h
      · rename_i info hfind
        split
        · rename_i hh
          have hh' : ({ srv with
              sessions := srv.sessions.filter (fun i => i.id ≠ sid)
              : Server }).activeControllerId = some info.id := hh
          rw [releaseActiveController_eq now _ (some info.id) info.id hh']
          intro cid hcid
          have hcid' : (promoteFirst now (some info.id)
              (srv.sessions.filter (fun i => i.id ≠ sid))).1 = some cid := hcid
          have := (promoteFirst_holder now (some info.id)
            (srv.sessions.filter (fun i => i.id ≠ sid)) cid hcid').1
          exact mem_fst_of_mem_abs this
        · rename_i hh
          intro cid hcid
          have hcid' : srv.activeControllerId = some cid := hcid
          have hmem := h cid hcid'
          have hid : info.id = sid := find?_session_id hfind
          have hne : cid ≠ sid := by
            intro he
            apply hh
            rw [hid, ← he]
            exact hcid'
          simp only [List.mem_map] at hmem
          obtain ⟨p, hp, hpc⟩ := hmem
          have hp' := abs_filter_ne sid srv.sessions p hp (by rw [hpc]; exact hne)
          have hfst := mem_fst_of_mem_abs hp'
          rw [hpc] at hfst
          exact hfst
  | tick now =>
      simp only [stepEvent]
      split
      · exact h
      · rename_i cid0 hh
        split
        · rename_i hfind
          rw [releaseActiveController_eq now srv none cid0 hh]
          intro cid hcid
          have hcid' : (promoteFirst now none srv.sessions).1 = some cid := hcid
          have := (promoteFirst_holder now none srv.sessions cid hcid').1
          exact mem_fst_of_mem_abs this
        · rename_i info hfind
          split
          · rename_i ht
            rw [releaseActiveController_eq now srv (some info.id) cid0 hh]
            intro cid hcid
            have hcid' : (promoteFirst now (some info.id) srv.sessions).1 =
                some cid := hcid
            have := (promoteFirst_holder now (some info.id) srv.sessions
              cid hcid').1
            exact mem_fst_of_mem_abs this
          · exact h

theorem stepEvent_controlInv (st : Store) (timeout : Nat) (srv : Server)
    (e : Event) (h : ControlInvP srv)
    (hfresh : ∀ sid r now2, e = .message sid (.hello r) now2 →
       ∀ p ∈ absSessions srv.sessions, p.1 = sid → p.2 = Role.unknown) :
    ControlInvP (stepEvent st timeout srv e) := by
  cases e with
  | connect now =>
      intro cid hcid
      have hmem := h cid hcid
      show (cid, Role.control) ∈
        absSessions (srv.sessions ++ [⟨srv.counter, Role.unknown, now⟩])
      unfold absSessions at hmem ⊢
      simp only [List.map_append, List.mem_append]
      exact Or.inl hmem
  | message sid msg now =>
      show ControlInvP (handleMessage st now srv sid msg).server
      rcases handleMessage_server_cases st now srv sid msg with
        hs | ⟨stt, hs⟩ | ⟨r, hmsg, hs⟩
      · rw [hs]
        exact h
      · rw [hs]
        intro cid hcid
        have hmem := h cid hcid
        show (cid, Role.control) ∈ absSessions (touchById now sid srv.sessions)
        rw [abs_touchById]
        exact hmem
      · subst hmsg
        have hf := hfresh sid r now rfl
        have hnot_holder_sid : ∀ cid,
            (cid, Role.control) ∈ absSessions srv.sessions → cid ≠ sid := by
          intro cid hmem he
          have h2 : Role.control = Role.unknown := hf (cid, Role.control) hmem he
          exact absurd h2 (by decide)
        rw [hs]
        rcases handleHello_server_cases now srv sid r with hh | hh
        · rw [hh]
          intro cid hcid
          have hmem := h cid hcid
          exact abs_setRoleById_ne (normalizeRole r) sid srv.sessions
            (cid, Role.control) hmem (hnot_holder_sid cid hmem)
        · rw [hh]
          rcases claimController_cases now sid
              { srv with
                sessions := setRoleById (normalizeRole r) sid srv.sessions }
            with hc | ⟨info, hfind, hrole, hc | hc⟩
          · rw [hc]
            intro cid hcid
            have hmem := h cid hcid
            exact abs_setRoleById_ne (normalizeRole r) sid srv.sessions
              (cid, Role.control) hmem (hnot_holder_sid cid hmem)
          · rw [hc.1]
            intro cid hcid
            have hsid : sid = cid := by simpa using hcid
            subst hsid
            have hinfo : info ∈ setRoleById (normalizeRole r) sid srv.sessions :=
              List.mem_of_find?_eq_some hfind
            have hid : info.id = sid := find?_session_id hfind
            show (sid, Role.control) ∈ absSessions
              (touchById now sid (setRoleById (normalizeRole r) sid srv.sessions))
            rw [abs_touchById]
            have hpair : (info.id, info.role) ∈
                absSessions (setRoleById (normalizeRole r) sid srv.sessions) :=
              List.mem_map_of_mem _ hinfo
            rw [hid, hrole] at hpair
            exact hpair
          · rw [hc]
            intro cid hcid
            have hcid' : srv.activeControllerId = some cid := hcid
            have hmem := h cid hcid'
            have hin := abs_setRoleById_ne (normalizeRole r) sid srv.sessions
              (cid, Role.control) hmem (hnot_holder_sid cid hmem)
            show (cid, Role.control) ∈ absSessions
              (touchById now sid (setRoleById (normalizeRole r) sid srv.sessions))
            rw [abs_touchById]
            exact hin
  | disconnect sid now =>
      simp only [stepEvent]
      split
      · exact h
      · rename_i info hfind
        split
        · rename_i hh
          have hh' : ({ srv with
              sessions := srv.sessions.filter (fun i => i.id ≠ sid)
              : Server }).activeControllerId = some info.id := hh
          rw [releaseActiveController_eq now _ (some info.id) info.id hh']
          intro cid hcid
          have hcid' : (promoteFirst now (some info.id)
              (srv.sessions.filter (fun i => i.id ≠ sid))).1 = some cid := hcid
          exact (promoteFirst_holder now (some info.id)
            (srv.sessions.filter (fun i => i.id ≠ sid)) cid hcid').1
        · rename_i hh
          intro cid hcid
          have hcid' : srv.activeControllerId = some cid := hcid
          have hmem := h cid hcid'
          have hid : info.id = sid := find?_session_id hfind
          have hne : cid ≠ sid := by
            intro he
            apply hh
            rw [hid, ← he]
            exact hcid'
          exact abs_filter_ne sid srv.sessions (cid, Role.control) hmem hne
  | tick now =>
      simp only [stepEvent]
      split
      · exact h
      · rename_i cid0 hh
        split
        · rename_i hfind
          rw [releaseActiveController_eq now srv none cid0 hh]
          intro cid hcid
          have hcid' : (promoteFirst now none srv.sessions).1 = some cid := hcid
          exact (promoteFirst_holder now none srv.sessions cid hcid').1
        · rename_i info hfind
          split
          · rename_i ht
            rw [releaseActiveController_eq now srv (some info.id) cid0 hh]
            intro cid hcid
            have hcid' : (promoteFirst now (some info.id) srv.sessions).1 =
                some cid := hcid
            exact (promoteFirst_holder now (some info.id) srv.sessions
              cid hcid').1
          · exact h

theorem stepEvent_sessions_cases (st : Store) (timeout : Nat) (srv : Server)
    (e : Event) :
    ∀ p ∈ absSessions (stepEvent st timeout srv e).sessions,
      p ∈ absSessions srv.sessions ∨
      p = (srv.counter, Role.unknown) ∨
      (∃ sid r now2, e = .message sid (.hello r) now2 ∧ p.1 = sid) := by
  cases e with
  | connect now =>
      intro p hp
      have hp' : p ∈ absSessions
          (srv.sessions ++ [⟨srv.counter, Role.unknown, now⟩]) := hp
      unfold absSessions at hp'
      simp only [List.map_append, List.mem_append] at hp'
      rcases hp' with hp' | hp'
      · exact Or.inl hp'
      · right
        left
        simpa using hp'
  | message sid msg now =>
      intro p hp
      have hp0 : p ∈ absSessions (handleMessage st now srv sid msg).server.sessions := hp
      rcases handleMessage_server_cases st now srv sid msg with
        hs | ⟨stt, hs⟩ | ⟨r, hmsg, hs⟩
      · rw [hs] at hp0
        exact Or.inl hp0
      · rw [hs] at hp0
        have hp2 : p ∈ absSessions (touchById now sid srv.sessions) := hp0
        rw [abs_touchById] at hp2
        exact Or.inl hp2
      · subst hmsg
        rw [hs] at hp0
        have fromSetRole : p ∈ absSessions
            (setRoleById (normalizeRole r) sid srv.sessions) →
            p ∈ absSessions srv.sessions ∨
            (∃ sid' r' now2, (Event.message sid (Msg.hello r) now : Event) =
              .message sid' (.hello r') now2 ∧ p.1 = sid') := by
          intro hp2
          rcases abs_setRoleById_rev (normalizeRole r) sid srv.sessions p hp2 with
            hin | ⟨hpid, hprole⟩
          · exact Or.inl hin
          · exact Or.inr ⟨sid, r, now, rfl, hpid⟩
        rcases handleHello_server_cases now srv sid r with hh | hh
        · rw [hh] at hp0
          rcases fromSetRole hp0 with hin | hex
          · exact Or.inl hin
          · exact Or.inr (Or.inr hex)
        · rw [hh] at hp0
          rcases claimController_cases now sid
              { srv with
                sessions := setRoleById (normalizeRole r) sid srv.sessions }
            with hc | ⟨info, hfind, hrole, hc | hc⟩
          · rw [hc] at hp0
            rcases fromSetRole hp0 with hin | hex
            · exact Or.inl hin
            · exact Or.inr (Or.inr hex)
          · rw [hc.1] at hp0
            have hp2 : p ∈ absSessions (touchById now sid
                (setRoleById (normalizeRole r) sid srv.sessions)) := hp0
            rw [abs_touchById] at hp2
            rcases fromSetRole hp2 with hin | hex
            · exact Or.inl hin
            · exact Or.inr (Or.inr hex)
          · rw [hc] at hp0
            have hp2 : p ∈ absSessions (touchById now sid
                (setRoleById (normalizeRole r) sid srv.sessions)) := hp0
            rw [abs_touchById] at hp2
            rcases fromSetRole hp2 with hin | hex
            · exact Or.inl hin
            · exact Or.inr (Or.inr hex)
  | disconnect sid now =>
      simp only [stepEvent]
      split
      · intro p hp
        exact Or.inl hp
      · rename_i info hfind
        split
        · rename_i hh
          have hh' : ({ srv with
              sessions := srv.sessions.filter (fun i => i.id ≠ sid)
              : Server }).activeControllerId = some info.id := hh
          rw [releaseActiveController_eq now _ (some info.id) info.id hh']
          intro p hp
          have hp2 : p ∈ absSessions (promoteFirst now (some info.id)
              (srv.sessions.filter (fun i => i.id ≠ sid))).2 := hp
          rw [abs_promoteFirst] at hp2
          exact Or.inl (abs_filter_sub sid srv.sessions p hp2)
        · intro p hp
          have hp2 : p ∈ absSessions
              (srv.sessions.filter (fun i => i.id ≠ sid)) := hp
          exact Or.inl (abs_filter_sub sid srv.sessions p hp2)
  | tick now =>
      simp only [stepEvent]
      split
      · intro p hp
        exact Or.inl hp
      · rename_i cid0 hh
        split
        · rename_i hfind
          rw [releaseActiveController_eq now srv none cid0 hh]
          intro p hp
          have hp2 : p ∈ absSessions (promoteFirst now none srv.sessions).2 := hp
          rw [abs_promoteFirst] at hp2
          exact Or.inl hp2
        · rename_i info hfind
          split
          · rename_i ht
            rw [releaseActiveController_eq now srv (some info.id) cid0 hh]
            intro p hp
            have hp2 : p ∈ absSessions
                (promoteFirst now (some info.id) srv.sessions).2 := hp
            rw [abs_promoteFirst] at hp2
            exact Or.inl hp2
          · intro p hp
            exact Or.inl hp

theorem stepEvent_fresh (st : Store) (timeout : Nat) (srv : Server)
    (e : Event) (sids : List Nat)
    (hf : ∀ sid ∈ sids, ∀ p ∈ absSessions srv.sessions,
       p.1 = sid → p.2 = Role.unknown)
    (hnot : ∀ sid r now2, e = .message sid (.hello r) now2 → sid ∉ sids) :
    ∀ sid ∈ sids, ∀ p ∈ absSessions (stepEvent st timeout srv e).sessions,
      p.1 = sid → p.2 = Role.unknown := by
  intro sid hsid p hp hp1
  rcases stepEvent_sessions_cases st timeout srv e p hp with
    hin | hnew | ⟨sid', r, now2, he, hpid⟩
  · exact hf sid hsid p hin hp1
  · rw [hnew]
  · exfalso
    have hss : sid = sid' := by rw [← hp1, hpid]
    subst hss
    exact hnot sid r now2 he hsid

theorem helloTargets_cons (e : Event) (rest : List Event) :
    helloTargets (e :: rest) =
      match helloTarget? e with
      | some sid => sid :: helloTargets rest
      | none => helloTargets rest := by
  cases e with
  | connect now => rfl
  | disconnect sid now => rfl
  | tick now => rfl
  | message sid msg now => cases msg <;> rfl

theorem helloTarget?_eq_some {e : Event} {sid : Nat}
    (h : helloTarget? e = some sid) :
    ∃ r now2, e = .message sid (.hello r) now2 := by
  cases e with
  | connect now => exact Option.noConfusion h
  | disconnect s n => exact Option.noConfusion h
  | tick n => exact Option.noConfusion h
  | message sid0 msg now =>
      cases msg with
      | hello r =>
          have hs : sid0 = sid := by simpa [helloTarget?] using h
          subst hs
          exact ⟨r, now, rfl⟩
      | heartbeat => exact Option.noConfusion h
      | requestState => exact Option.noConfusion h
      | setModeMsg m => exact Option.noConfusion h
      | setQuranMsg a b => exact Option.noConfusion h
      | setDuaMsg a b => exact Option.noConfusion h
      | nextMsg => exact Option.noConfusion h
      | prevMsg => exact Option.noConfusion h
      | stepMsg d => exact Option.noConfusion h
      | setStateMsg a b => exact Option.noConfusion h
      | unrecognized => exact Option.noConfusion h

theorem helloTarget?_eq_none {e : Event} (h : helloTarget? e = none) :
    ∀ sid r now2, e ≠ .message sid (.hello r) now2 := by
  intro sid r now2 he
  subst he
  exact Option.noConfusion h

theorem runFrom_regInv (st : Store) (timeout : Nat) :
    ∀ (events : List Event) (srv : Server), RegInvP srv →
      RegInvP (runFrom st timeout srv events) := by
  intro events
  induction events with
  | nil => intro srv h; exact h
  | cons e rest ih =>
      intro srv h
      exact ih (stepEvent st timeout srv e) (stepEvent_regInv st timeout srv e h)

theorem runFrom_controlInv (st : Store) (timeout : Nat) :
    ∀ (events : List Event) (srv : Server),
      ControlInvP srv →
      (helloTargets events).Nodup →
      (∀ sid ∈ helloTargets events, ∀ p ∈ absSessions srv.sessions,
        p.1 = sid → p.2 = Role.unknown) →
      ControlInvP (runFrom st timeout srv events) := by
  intro events
  induction events with
  | nil => intro srv h _ _; exact h
  | cons e rest ih =>
      intro srv h hnd hfr
      rcases hh : helloTarget? e with _ | sid0
      · have hne := helloTarget?_eq_none hh
        have hcons : helloTargets (e :: rest) = helloTargets rest := by
          rw [helloTargets_cons, hh]
        rw [hcons] at hnd hfr
        apply ih (stepEvent st timeout srv e)
        · apply stepEvent_controlInv st timeout srv e h
          intro sid r now2 he
          exact absurd he (hne sid r now2)
        · exact hnd
        · apply stepEvent_fresh st timeout srv e _ hfr
          intro sid r now2 he
          exact absurd he (hne sid r now2)
      · obtain ⟨r, now2, he⟩ := helloTarget?_eq_some hh
        have hcons : helloTargets (e :: rest) = sid0 :: helloTargets rest := by
          rw [helloTargets_cons, hh]
        rw [hcons] at hnd hfr
        have hnotin := (List.nodup_cons.1 hnd).1
        have hnd' := (List.nodup_cons.1 hnd).2
        apply ih (stepEvent st timeout srv e)
        · apply stepEvent_controlInv st timeout srv e h
          intro sid r' now2' he'
          rw [he] at he'
          injection he' with h1 h2 h3
          subst h1
          exact hfr sid0 (List.mem_cons_self _ _)
        · exact hnd'
        · apply stepEvent_fresh st timeout srv e _
            (fun sid hs p hp hp1 => hfr sid (List.mem_cons_of_mem _ hs) p hp hp1)
          intro sid r' now2' he'
          rw [he] at he'
          injection he' with h1 h2 h3
          rw [← h1]
          exact hnotin

/-- C1 (corrected): in every reachable server state `activeControllerId`
holds at most one session identifier and, when non-null, always identifies a
currently-registered session; that session's role is moreover `control`
provided no connection sends more than one role declaration (`hello`).  The
unrestricted claim fails because a second `hello` on the lock-holding
connection can overwrite its role without releasing the lock (see the
counterexample). -/
theorem c1_control_lock_safety (st : Store) (timeout : Nat)
    (events : List Event) :
    holderRegistered (run st timeout events) = true ∧
    ((helloTargets events).Nodup → holderOk (run st timeout events) = true) := by
  constructor
  · rw [holderRegistered_iff]
    exact runFrom_regInv st timeout events (initServer st)
      (by intro cid hcid; cases hcid)
  · intro hnd
    rw [holderOk_iff]
    exact runFrom_controlInv st timeout events (initServer st)
      (by intro cid hcid; cases hcid) hnd
      (by intro sid hs p hp hp1; cases hp)

/-- C1 counterexample: after `connect; hello control; hello display` on the
same connection, the lock is still held by session 1 but its stored role is
`display`, so the invariant as claimed (holder is a controller-role
session) is false in a reachable state. -/
theorem c1_control_lock_safety_cex :
    (run demoStore 15000
      [.connect 0, .message 1 (.hello "control") 1,
       .message 1 (.hello "display") 2]).activeControllerId = some 1 ∧
    roleOf (run demoStore 15000
      [.connect 0, .message 1 (.hello "control") 1,
       .message 1 (.hello "display") 2]) 1 = some Role.display ∧
    holderOk (run demoStore 15000
      [.connect 0, .message 1 (.hello "control") 1,
       .message 1 (.hello "display") 2]) = false := by
  refine ⟨by decide, by decide, by decide⟩

/-- Witness for C1: a trace with one `hello` per connection (claim, second
controller joins, holder disconnects and the lock is promoted, monitor
tick) keeps the invariant. -/
theorem c1_control_lock_safety_witness :
    (helloTargets
      [Event.connect 0, .message 1 (.hello "control") 1, .connect 2,
       .message 2 (.hello "control") 3, .disconnect 1 4, .tick 20000]).Nodup ∧
    holderOk (run demoStore 15000
      [Event.connect 0, .message 1 (.hello "control") 1, .connect 2,
       .message 2 (.hello "control") 3, .disconnect 1 4, .tick 20000]) = true :=
  ⟨by decide,
    (c1_control_lock_safety demoStore 15000
      [Event.connect 0, .message 1 (.hello "control") 1, .connect 2,
       .message 2 (.hello "control") 3, .disconnect 1 4, .tick 20000]).2
      (by decide)⟩

end QuranControl

